import Mathlib

/-!
Shallow embedding of the CHIP-8 interpreter core found in `src/chip8/mod.rs`
of the GKaszewski/chip8 repository, together with proofs settling the frozen
claims about its specification.

Machine integers are modelled as `Nat` with explicit `% 256` / `% 65536`
reductions exactly where the Rust code performs wrapping `u8`/`u16`
arithmetic.  Rust's panicking array indexing (`a[i]`) is modelled by
`Option`-returning accessors: a `none` result corresponds to an
out-of-bounds panic of the source program.  Fields keep the source's names.
-/

set_option maxRecDepth 10000

/-- Configurable quirks, from `struct Quirks`. -/
structure Quirks where
  shift_vy : Bool
deriving DecidableEq

/-- Machine state, from `struct Chip8`.  Arrays become `Nat` lists whose
lengths (4096 / 16 / 16 / 2048 / 80) are carried as hypotheses where a
proof needs them. -/
structure Chip8 where
  memory : List Nat
  v : List Nat
  pc : Nat
  i : Nat
  stack : List Nat
  sp : Nat
  timer_delay : Nat
  timer_sound : Nat
  display : List Nat
  fontset : List Nat
  quirks : Quirks
deriving DecidableEq

/-- The built-in font, from `const FONT_SET`. -/
def FONT_SET : List Nat :=
  [0xF0, 0x90, 0x90, 0x90, 0xF0,
   0x20, 0x60, 0x20, 0x20, 0x70,
   0xF0, 0x10, 0xF0, 0x80, 0xF0,
   0xF0, 0x10, 0xF0, 0x10, 0xF0,
   0x90, 0x90, 0xF0, 0x10, 0x10,
   0xF0, 0x80, 0xF0, 0x10, 0xF0,
   0xF0, 0x80, 0xF0, 0x90, 0xF0,
   0xF0, 0x10, 0x20, 0x40, 0x40,
   0xF0, 0x90, 0xF0, 0x90, 0xF0,
   0xF0, 0x90, 0xF0, 0x10, 0xF0,
   0xF0, 0x90, 0xF0, 0x90, 0x90,
   0xE0, 0x90, 0xE0, 0x90, 0xE0,
   0xF0, 0x80, 0x80, 0x80, 0xF0,
   0xE0, 0x90, 0x90, 0x90, 0xE0,
   0xF0, 0x80, 0xF0, 0x80, 0xF0,
   0xF0, 0x80, 0xF0, 0x80, 0x80]

/-- Copy the fontset into the first 80 memory cells, from
`initialize_memory`. -/
def initialize_memory (fontset : List Nat) (memory : List Nat) : List Nat :=
  (List.range 80).foldl (fun m j => m.set j (fontset.getD j 0)) memory

/-- Fresh machine, from `Chip8::new`. -/
def Chip8.new (q : Quirks) : Chip8 :=
  { memory := initialize_memory FONT_SET (List.replicate 4096 0)
    v := List.replicate 16 0
    pc := 0x200
    i := 0
    stack := List.replicate 16 0
    sp := 0
    timer_delay := 0
    timer_sound := 0
    display := List.replicate (64 * 32) 0
    fontset := FONT_SET
    quirks := q }

/-- Byte-by-byte ROM copy, from the loop body of `load_rom`: each byte is
written to `0x200 + idx` only when that address is below the memory
length. -/
def loadBytes : List Nat → Nat → List Nat → List Nat
  | mem, _, [] => mem
  | mem, idx, b :: rest =>
      loadBytes (if idx + 0x200 < mem.length then mem.set (idx + 0x200) b else mem)
        (idx + 1) rest

/-- From `load_rom`. -/
def Chip8.load_rom (s : Chip8) (data : List Nat) : Chip8 :=
  { s with memory := loadBytes s.memory 0 data }

/-- From `update_timers`: each timer decrements when positive, clamped
at zero. -/
def Chip8.update_timers (s : Chip8) : Chip8 :=
  { s with
    timer_delay := if 0 < s.timer_delay then s.timer_delay - 1 else s.timer_delay
    timer_sound := if 0 < s.timer_sound then s.timer_sound - 1 else s.timer_sound }

/-- From `fetch_opcode`: big-endian combine of the bytes at `pc` and
`pc + 1` (for byte values `hi * 256 + lo` equals the source's
`(hi << 8) | lo`), then advance `pc` by 2.  A `none` is the panic of an
out-of-range read. -/
def Chip8.fetch_opcode (s : Chip8) : Option (Nat × Chip8) := do
  let hi ← s.memory.get? s.pc
  let lo ← s.memory.get? (s.pc + 1)
  pure (hi * 256 + lo, { s with pc := s.pc + 2 })

/-- Checked write to a register, modelling `self.v[j] = val`. -/
def setV (s : Chip8) (j val : Nat) : Option Chip8 :=
  if j < s.v.length then some { s with v := s.v.set j val } else none

/-- Checked write to memory, modelling `self.memory[a] = val`. -/
def setMem (s : Chip8) (a val : Nat) : Option Chip8 :=
  if a < s.memory.length then some { s with memory := s.memory.set a val } else none

/-- One drawn sprite bit, from the inner body of the `Dxyn` arm: reduce the
target index modulo the display length, record a collision when the pixel
already holds 1, XOR the pixel. -/
def drawPixel (disp : List Nat) (idx coll : Nat) : Option (List Nat × Nat) := do
  let old ← disp.get? (idx % disp.length)
  pure (disp.set (idx % disp.length) (old ^^^ 1), if old = 1 then 1 else coll)

/-- The `xline` loop of the `Dxyn` arm for one sprite byte `pixel`;
`rowBase` is `(vy + yline) * 64`. -/
def drawBits (pixel vx rowBase : Nat) : List Nat → List Nat × Nat → Option (List Nat × Nat)
  | [], acc => pure acc
  | xline :: rest, acc =>
      if pixel &&& (0x80 >>> xline) ≠ 0 then do
        let acc2 ← drawPixel acc.1 (vx + xline + rowBase) acc.2
        drawBits pixel vx rowBase rest acc2
      else drawBits pixel vx rowBase rest acc

/-- The `yline` loop of the `Dxyn` arm: read a sprite byte from memory
(panicking when out of range) and draw its bits. -/
def drawRows (mem : List Nat) (iReg vx vy : Nat) :
    List Nat → List Nat × Nat → Option (List Nat × Nat)
  | [], acc => pure acc
  | yline :: rest, acc => do
      let pixel ← mem.get? (iReg + yline)
      let acc2 ← drawBits pixel vx ((vy + yline) * 64) (List.range 8) acc
      drawRows mem iReg vx vy rest acc2

/-- The `Fx0A` key scan: the source loops over all key indices and keeps
overwriting `v[x]` with every pressed index, so the final value is the
last (largest) pressed index; `none` means no key was pressed. -/
def keyScan (kp : List Nat) : Option Nat :=
  (List.range kp.length).foldl (fun acc j => if kp.getD j 0 ≠ 0 then some j else acc) none

/-- The `Fx55` loop: store `v[j]` at `i + j` for each listed `j`. -/
def storeSeq : Chip8 → List Nat → Option Chip8
  | s, [] => pure s
  | s, j :: rest => do
      let vj ← s.v.get? j
      let s1 ← setMem s (s.i + j) vj
      storeSeq s1 rest

/-- The `Fx65` loop: load `v[j]` from `i + j` for each listed `j`. -/
def loadSeq : Chip8 → List Nat → Option Chip8
  | s, [] => pure s
  | s, j :: rest => do
      let mj ← s.memory.get? (s.i + j)
      let s1 ← setV s j mj
      loadSeq s1 rest

/-- From `execute_opcode`.  `rand` supplies the byte that the source draws
from its thread-local RNG for `Cxkk`.  Each Rust indexing operation is a
checked access; each `u8`/`u16` write wraps.  Reads and writes happen in
the source's order (this matters when `x` or `y` is `0xF`). -/
def Chip8.execute_opcode (s : Chip8) (op : Nat) (keypad : List Nat) (rand : Nat) :
    Option Chip8 :=
  let x := op / 256 % 16
  let y := op / 16 % 16
  let n4 := op % 16
  let nnn := op % 4096
  let kk := op % 256
  let first := op / 4096 % 16
  if first = 0 then
    if x = 0 then
      if n4 = 0xE then
        if 0 < s.sp then do
          let ret ← s.stack.get? (s.sp - 1)
          pure { s with sp := s.sp - 1, pc := ret }
        else pure s
      else pure { s with display := List.replicate s.display.length 0 }
    else pure s
  else if first = 1 then
    pure { s with pc := nnn }
  else if first = 2 then
    if s.sp < s.stack.length then
      pure { s with stack := s.stack.set s.sp s.pc, sp := s.sp + 1, pc := nnn }
    else pure s
  else if first = 3 then do
    let vx ← s.v.get? x
    pure (if vx = kk then { s with pc := s.pc + 2 } else s)
  else if first = 4 then do
    let vx ← s.v.get? x
    pure (if vx ≠ kk then { s with pc := s.pc + 2 } else s)
  else if first = 5 then do
    let vx ← s.v.get? x
    let vy ← s.v.get? y
    pure (if vx = vy then { s with pc := s.pc + 2 } else s)
  else if first = 6 then
    setV s x kk
  else if first = 7 then do
    let vx ← s.v.get? x
    setV s x ((vx + kk) % 256)
  else if first = 8 then
    if n4 = 0 then do
      let vy ← s.v.get? y
      setV s x vy
    else if n4 = 1 then do
      let vx ← s.v.get? x
      let vy ← s.v.get? y
      setV s x (vx ||| vy)
    else if n4 = 2 then do
      let vx ← s.v.get? x
      let vy ← s.v.get? y
      setV s x (vx &&& vy)
    else if n4 = 3 then do
      let vx ← s.v.get? x
      let vy ← s.v.get? y
      setV s x (vx ^^^ vy)
    else if n4 = 4 then do
      let vx ← s.v.get? x
      let vy ← s.v.get? y
      let s1 ← setV s 0xF (if 256 ≤ vx + vy then 1 else 0)
      setV s1 x ((vx + vy) % 256)
    else if n4 = 5 then do
      let vx ← s.v.get? x
      let vy ← s.v.get? y
      let s1 ← setV s 0xF (if vy < vx then 1 else 0)
      let vx2 ← s1.v.get? x
      let vy2 ← s1.v.get? y
      setV s1 x ((vx2 + 256 - vy2 % 256) % 256)
    else if n4 = 6 then do
      let s1 ←
        if s.quirks.shift_vy then do
          let vy ← s.v.get? y
          setV s x vy
        else pure s
      let vx1 ← s1.v.get? x
      let s2 ← setV s1 0xF (vx1 &&& 1)
      let vx2 ← s2.v.get? x
      setV s2 x (vx2 >>> 1)
    else if n4 = 7 then do
      let vx ← s.v.get? x
      let vy ← s.v.get? y
      let s1 ← setV s 0xF (if vx < vy then 1 else 0)
      let vx2 ← s1.v.get? x
      let vy2 ← s1.v.get? y
      setV s1 x ((vy2 + 256 - vx2 % 256) % 256)
    else if n4 = 0xE then do
      let s1 ←
        if s.quirks.shift_vy then do
          let vy ← s.v.get? y
          setV s x vy
        else pure s
      let vx1 ← s1.v.get? x
      let s2 ← setV s1 0xF ((vx1 &&& 0x80) >>> 7)
      let vx2 ← s2.v.get? x
      setV s2 x ((vx2 <<< 1) % 256)
    else pure s
  else if first = 9 then do
    let vx ← s.v.get? x
    let vy ← s.v.get? y
    pure (if vx ≠ vy then { s with pc := s.pc + 2 } else s)
  else if first = 0xA then
    pure { s with i := nnn }
  else if first = 0xB then do
    let v0 ← s.v.get? 0
    pure { s with pc := nnn + v0 }
  else if first = 0xC then
    setV s x (rand % 256 &&& kk)
  else if first = 0xD then do
    let vx ← s.v.get? x
    let vy ← s.v.get? y
    let acc ← drawRows s.memory s.i vx vy (List.range n4) (s.display, 0)
    setV { s with display := acc.1 } 0xF acc.2
  else if first = 0xE then
    if kk = 0x9E then do
      let vx ← s.v.get? x
      let key ← keypad.get? vx
      pure (if key ≠ 0 then { s with pc := s.pc + 2 } else s)
    else if kk = 0xA1 then do
      let vx ← s.v.get? x
      let key ← keypad.get? vx
      pure (if key = 0 then { s with pc := s.pc + 2 } else s)
    else pure s
  else if first = 0xF then
    if kk = 0x07 then
      setV s x s.timer_delay
    else if kk = 0x0A then
      match keyScan keypad with
      | some j => setV s x j
      | none => pure { s with pc := s.pc - 2 }
    else if kk = 0x15 then do
      let vx ← s.v.get? x
      pure { s with timer_delay := vx }
    else if kk = 0x18 then do
      let vx ← s.v.get? x
      pure { s with timer_sound := vx }
    else if kk = 0x1E then do
      let vx ← s.v.get? x
      pure { s with i := (s.i + vx) % 65536 }
    else if kk = 0x29 then do
      let vx ← s.v.get? x
      pure { s with i := vx * 5 }
    else if kk = 0x33 then do
      let num ← s.v.get? x
      let s1 ← setMem s s.i (num / 100)
      let s2 ← setMem s1 (s.i + 1) (num % 100 / 10)
      setMem s2 (s.i + 2) (num % 10)
    else if kk = 0x55 then
      storeSeq s (List.range (x + 1))
    else if kk = 0x65 then
      loadSeq s (List.range (x + 1))
    else pure s
  else pure s

/-- From `tick`: fetch then execute. -/
def Chip8.tick (s : Chip8) (keypad : List Nat) (rand : Nat) : Option Chip8 := do
  let r ← s.fetch_opcode
  Chip8.execute_opcode r.2 r.1 keypad rand

/-- Representation invariant carried by every real machine: the fixed Rust
array lengths. -/
def sizesOk (s : Chip8) : Prop :=
  s.memory.length = 4096 ∧ s.v.length = 16 ∧ s.stack.length = 16 ∧
    s.display.length = 2048

instance (s : Chip8) : Decidable (sizesOk s) := by
  unfold sizesOk; infer_instance

/-! ### List access lemmas -/

theorem get?_set_self : ∀ (l : List Nat) (j val : Nat), j < l.length →
    (l.set j val).get? j = some val := by
  intro l
  induction l with
  | nil => intro j val h; simp at h
  | cons a t ih =>
      intro j val h
      cases j with
      | zero => simp [List.set]
      | succ k => simpa [List.set] using ih k val (by simpa using h)

theorem get?_set_ne : ∀ (l : List Nat) (j k val : Nat), j ≠ k →
    (l.set j val).get? k = l.get? k := by
  intro l
  induction l with
  | nil => intro j k val _; simp
  | cons a t ih =>
      intro j k val h
      cases j with
      | zero =>
          cases k with
          | zero => exact absurd rfl h
          | succ m => simp [List.set]
      | succ jj =>
          cases k with
          | zero => simp [List.set]
          | succ m => simpa [List.set] using ih jj m val (fun hh => h (by omega))

theorem get?_eq_some_getD : ∀ (l : List Nat) (j : Nat), j < l.length →
    l.get? j = some (l.getD j 0) := by
  intro l
  induction l with
  | nil => intro j h; simp at h
  | cons a t ih =>
      intro j h
      cases j with
      | zero => simp
      | succ k => simpa using ih k (by simpa using h)

/-! ### Opcode field decoding -/

theorem decode_fields (a b c d : Nat) (ha : a < 16) (hb : b < 16) (hc : c < 16)
    (hd : d < 16) :
    (a * 4096 + b * 256 + c * 16 + d) / 4096 % 16 = a
  ∧ (a * 4096 + b * 256 + c * 16 + d) / 256 % 16 = b
  ∧ (a * 4096 + b * 256 + c * 16 + d) / 16 % 16 = c
  ∧ (a * 4096 + b * 256 + c * 16 + d) % 16 = d
  ∧ (a * 4096 + b * 256 + c * 16 + d) % 4096 = b * 256 + c * 16 + d
  ∧ (a * 4096 + b * 256 + c * 16 + d) % 256 = c * 16 + d := by
  refine ⟨?_, ?_, ?_, ?_, ?_, ?_⟩ <;> omega

/-! ### Small reduction lemmas for the checked accessors -/

theorem setV_eq (s : Chip8) (j val : Nat) (h : j < s.v.length) :
    setV s j val = some { s with v := s.v.set j val } := by
  simp [setV, h]

theorem setMem_eq (s : Chip8) (a val : Nat) (h : a < s.memory.length) :
    setMem s a val = some { s with memory := s.memory.set a val } := by
  simp [setMem, h]

theorem getD_set_self : ∀ (l : List Nat) (j val : Nat), j < l.length →
    (l.set j val).getD j 0 = val := by
  intro l
  induction l with
  | nil => intro j val h; simp at h
  | cons a t ih =>
      intro j val h
      cases j with
      | zero => simp [List.set]
      | succ k => simpa [List.set] using ih k val (by simpa using h)

theorem getD_set_ne : ∀ (l : List Nat) (j k val : Nat), j ≠ k →
    (l.set j val).getD k 0 = l.getD k 0 := by
  intro l
  induction l with
  | nil => intro j k val _; simp
  | cons a t ih =>
      intro j k val h
      cases j with
      | zero =>
          cases k with
          | zero => exact absurd rfl h
          | succ m => simp [List.set]
      | succ jj =>
          cases k with
          | zero => simp [List.set]
          | succ m => simpa [List.set] using ih jj m val (fun hh => h (by omega))

/-- Bit 7 via the source's mask-and-shift, as a divide-mod expression. -/
theorem and_hi_shift (a : Nat) : (a &&& 0x80) >>> 7 = a / 128 % 2 := by
  rw [show (0x80 : Nat) = 2 ^ 7 from rfl, Nat.and_two_pow, Nat.shiftRight_eq_div_pow]
  rcases hb : a.testBit 7 with _ | _ <;>
    simp [Nat.testBit_to_div_mod] at hb <;> simp [hb]

/-- The sprite bit test of the source, as a divide-mod expression. -/
theorem mask_bit (p c : Nat) (hc : c < 8) :
    (p &&& (0x80 >>> c) ≠ 0) ↔ p / 2 ^ (7 - c) % 2 = 1 := by
  have h : (0x80 : Nat) >>> c = 2 ^ (7 - c) := by interval_cases c <;> rfl
  rw [h, Nat.and_two_pow]
  rcases hb : p.testBit (7 - c) with _ | _ <;>
    simp [Nat.testBit_to_div_mod] at hb <;> simp [hb]

/-- A convenient fully explicit machine state used by concrete instances:
a zeroed 4 KB memory, the given registers, and empty display/stack. -/
def baseState (vals : List Nat) : Chip8 :=
  { memory := List.replicate 4096 0
    v := vals
    pc := 0x200
    i := 0
    stack := List.replicate 16 0
    sp := 0
    timer_delay := 0
    timer_sound := 0
    display := List.replicate 2048 0
    fontset := FONT_SET
    quirks := ⟨false⟩ }

/-! ### Claim C4: the 8xy4 add-with-carry instruction -/

/-- Reduction of the `8xy4` arm to an explicit result state. -/
theorem execute_8xy4_eq (s : Chip8) (kp : List Nat) (r x y : Nat)
    (hx : x < 16) (hy : y < 16) (hv : s.v.length = 16) :
    s.execute_opcode (8 * 4096 + x * 256 + y * 16 + 4) kp r =
      some { s with v :=
        ((s.v.set 15 (if 256 ≤ s.v.getD x 0 + s.v.getD y 0 then 1 else 0)).set
          x ((s.v.getD x 0 + s.v.getD y 0) % 256)) } := by
  obtain ⟨h1, h2, h3, h4, h5, h6⟩ :=
    decode_fields 8 x y 4 (by norm_num) hx hy (by norm_num)
  have hgx : s.v.get? x = some (s.v.getD x 0) := get?_eq_some_getD _ _ (by omega)
  have hgy : s.v.get? y = some (s.v.getD y 0) := get?_eq_some_getD _ _ (by omega)
  have hs1 : setV s 15 (if 256 ≤ s.v.getD x 0 + s.v.getD y 0 then 1 else 0) =
      some { s with v := s.v.set 15 (if 256 ≤ s.v.getD x 0 + s.v.getD y 0 then 1 else 0) } :=
    setV_eq _ _ _ (by omega)
  simp +decide only [Chip8.execute_opcode, h1, h2, h3, h4, h5, h6, hgx, hgy,
    Option.bind_eq_bind, Option.some_bind, ite_true, ite_false]
  rw [hs1]
  simp only [Option.some_bind]
  rw [setV_eq _ _ _ (by simp only [List.length_set]; omega)]

/-- C4 (amended): for all register indices x, y, executing 8xy4 sets
register[x] to (v[x] + v[y]) mod 256; when x is not 0xF, register[0xF]
becomes 1 exactly when the unsigned sum of the prior operands exceeds 255;
when x is 0xF the result write overwrites the carry flag, so register[0xF]
ends as the sum mod 256 instead. -/
theorem claim_c4_add_with_carry (s : Chip8) (kp : List Nat) (r x y : Nat)
    (hx : x < 16) (hy : y < 16) (hv : s.v.length = 16) :
    ∃ s', s.execute_opcode (8 * 4096 + x * 256 + y * 16 + 4) kp r = some s' ∧
      s'.v.getD x 0 = (s.v.getD x 0 + s.v.getD y 0) % 256 ∧
      (x ≠ 15 → s'.v.getD 15 0 =
        (if 255 < s.v.getD x 0 + s.v.getD y 0 then 1 else 0)) ∧
      (x = 15 → s'.v.getD 15 0 = (s.v.getD x 0 + s.v.getD y 0) % 256) := by
  refine ⟨_, execute_8xy4_eq s kp r x y hx hy hv, ?_, ?_, ?_⟩
  · exact getD_set_self _ _ _ (by simp only [List.length_set]; omega)
  · intro hne
    dsimp only
    rw [getD_set_ne _ _ _ _ hne]
    exact getD_set_self _ _ _ (by omega)
  · intro he
    subst he
    exact getD_set_self _ _ _ (by simp only [List.length_set]; omega)

/-- C4 counterexample: with x = 0xF (a case the claim explicitly includes),
v[0xF] = 200, v[0] = 100, the sum 300 exceeds 255, so the claim demands
register[0xF] = 1; the code leaves register[0xF] = 44 (the sum mod 256),
because the result write overwrites the carry flag. -/
theorem claim_c4_counterexample :
    ((baseState (((List.replicate 16 0).set 15 200).set 0 100)).execute_opcode
        0x8F04 (List.replicate 16 0) 0).map (fun t => t.v.getD 15 0) ≠ some 1 := by
  decide

/-- Concrete register list for the C4 witness: v[0] = 250, v[1] = 10. -/
def vW4 : List Nat := ((List.replicate 16 0).set 0 250).set 1 10

/-- Concrete machine for the C4 witness. -/
def sW4 : Chip8 := baseState vW4

theorem claim_c4_witness :
    ∃ s', sW4.execute_opcode (8 * 4096 + 0 * 256 + 1 * 16 + 4) (List.replicate 16 0) 0 =
        some s' ∧
      s'.v.getD 0 0 = (sW4.v.getD 0 0 + sW4.v.getD 1 0) % 256 ∧
      ((0 : Nat) ≠ 15 → s'.v.getD 15 0 =
        (if 255 < sW4.v.getD 0 0 + sW4.v.getD 1 0 then 1 else 0)) ∧
      ((0 : Nat) = 15 → s'.v.getD 15 0 = (sW4.v.getD 0 0 + sW4.v.getD 1 0) % 256) :=
  claim_c4_add_with_carry sW4 (List.replicate 16 0) 0 0 1 (by decide) (by decide) (by decide)

theorem execute_8xy6_eq_own (s : Chip8) (kp : List Nat) (r x y : Nat)
    (hx : x < 16) (hy : y < 16) (hv : s.v.length = 16)
    (hq : s.quirks.shift_vy = false) (hx15 : x ≠ 15) :
    s.execute_opcode (8 * 4096 + x * 256 + y * 16 + 6) kp r =
      some { s with v :=
        ((s.v.set 15 (s.v.getD x 0 &&& 1)).set x (s.v.getD x 0 >>> 1)) } := by
  obtain ⟨h1, h2, h3, h4, h5, h6⟩ :=
    decode_fields 8 x y 6 (by norm_num) hx hy (by norm_num)
  have hgx : s.v.get? x = some (s.v.getD x 0) := get?_eq_some_getD _ _ (by omega)
  have hs1 : setV s 15 (s.v.getD x 0 &&& 1) =
      some { s with v := s.v.set 15 (s.v.getD x 0 &&& 1) } := setV_eq _ _ _ (by omega)
  have hgx2 : (s.v.set 15 (s.v.getD x 0 &&& 1)).get? x = some (s.v.getD x 0) := by
    rw [get?_set_ne _ _ _ _ (fun hh => hx15 hh.symm), hgx]
  simp +decide only [Chip8.execute_opcode, h1, h2, h3, h4, h5, h6, hq, hgx,
    Option.pure_def, Option.bind_eq_bind, Option.some_bind, ite_true, ite_false]
  rw [hs1]
  simp only [Option.some_bind, hgx2]
  rw [setV_eq _ _ _ (by simp only [List.length_set]; omega)]

theorem execute_8xy6_eq_vy (s : Chip8) (kp : List Nat) (r x y : Nat)
    (hx : x < 16) (hy : y < 16) (hv : s.v.length = 16)
    (hq : s.quirks.shift_vy = true) (hx15 : x ≠ 15) :
    s.execute_opcode (8 * 4096 + x * 256 + y * 16 + 6) kp r =
      some { s with v :=
        (((s.v.set x (s.v.getD y 0)).set 15 (s.v.getD y 0 &&& 1)).set
          x (s.v.getD y 0 >>> 1)) } := by
  obtain ⟨h1, h2, h3, h4, h5, h6⟩ :=
    decode_fields 8 x y 6 (by norm_num) hx hy (by norm_num)
  have hgy : s.v.get? y = some (s.v.getD y 0) := get?_eq_some_getD _ _ (by omega)
  have hsv : setV s x (s.v.getD y 0) =
      some { s with v := s.v.set x (s.v.getD y 0) } := setV_eq _ _ _ (by omega)
  have hgx1 : (s.v.set x (s.v.getD y 0)).get? x = some (s.v.getD y 0) :=
    get?_set_self _ _ _ (by omega)
  have hgx2 : ((s.v.set x (s.v.getD y 0)).set 15 (s.v.getD y 0 &&& 1)).get? x =
      some (s.v.getD y 0) := by
    rw [get?_set_ne _ _ _ _ (fun hh => hx15 hh.symm), hgx1]
  simp +decide only [Chip8.execute_opcode, h1, h2, h3, h4, h5, h6, hq, hgy,
    Option.pure_def, Option.bind_eq_bind, Option.some_bind, ite_true, ite_false]
  rw [hsv]
  simp only [Option.some_bind, hgx1]
  rw [setV_eq _ _ _ (by simp only [List.length_set]; omega)]
  simp only [Option.some_bind, hgx2]
  rw [setV_eq _ _ _ (by simp only [List.length_set]; omega)]

theorem execute_8xyE_eq_own (s : Chip8) (kp : List Nat) (r x y : Nat)
    (hx : x < 16) (hy : y < 16) (hv : s.v.length = 16)
    (hq : s.quirks.shift_vy = false) (hx15 : x ≠ 15) :
    s.execute_opcode (8 * 4096 + x * 256 + y * 16 + 0xE) kp r =
      some { s with v :=
        ((s.v.set 15 ((s.v.getD x 0 &&& 0x80) >>> 7)).set
          x ((s.v.getD x 0 <<< 1) % 256)) } := by
  obtain ⟨h1, h2, h3, h4, h5, h6⟩ :=
    decode_fields 8 x y 0xE (by norm_num) hx hy (by norm_num)
  have hgx : s.v.get? x = some (s.v.getD x 0) := get?_eq_some_getD _ _ (by omega)
  have hs1 : setV s 15 ((s.v.getD x 0 &&& 0x80) >>> 7) =
      some { s with v := s.v.set 15 ((s.v.getD x 0 &&& 0x80) >>> 7) } :=
    setV_eq _ _ _ (by omega)
  have hgx2 : (s.v.set 15 ((s.v.getD x 0 &&& 0x80) >>> 7)).get? x = some (s.v.getD x 0) := by
    rw [get?_set_ne _ _ _ _ (fun hh => hx15 hh.symm), hgx]
  simp +decide only [Chip8.execute_opcode, h1, h2, h3, h4, h5, h6, hq, hgx,
    Option.pure_def, Option.bind_eq_bind, Option.some_bind, ite_true, ite_false]
  rw [hs1]
  simp only [Option.some_bind, hgx2]
  rw [setV_eq _ _ _ (by simp only [List.length_set]; omega)]

theorem execute_8xyE_eq_vy (s : Chip8) (kp : List Nat) (r x y : Nat)
    (hx : x < 16) (hy : y < 16) (hv : s.v.length = 16)
    (hq : s.quirks.shift_vy = true) (hx15 : x ≠ 15) :
    s.execute_opcode (8 * 4096 + x * 256 + y * 16 + 0xE) kp r =
      some { s with v :=
        (((s.v.set x (s.v.getD y 0)).set 15 ((s.v.getD y 0 &&& 0x80) >>> 7)).set
          x ((s.v.getD y 0 <<< 1) % 256)) } := by
  obtain ⟨h1, h2, h3, h4, h5, h6⟩ :=
    decode_fields 8 x y 0xE (by norm_num) hx hy (by norm_num)
  have hgy : s.v.get? y = some (s.v.getD y 0) := get?_eq_some_getD _ _ (by omega)
  have hsv : setV s x (s.v.getD y 0) =
      some { s with v := s.v.set x (s.v.getD y 0) } := setV_eq _ _ _ (by omega)
  have hgx1 : (s.v.set x (s.v.getD y 0)).get? x = some (s.v.getD y 0) :=
    get?_set_self _ _ _ (by omega)
  have hgx2 : ((s.v.set x (s.v.getD y 0)).set 15 ((s.v.getD y 0 &&& 0x80) >>> 7)).get? x =
      some (s.v.getD y 0) := by
    rw [get?_set_ne _ _ _ _ (fun hh => hx15 hh.symm), hgx1]
  simp +decide only [Chip8.execute_opcode, h1, h2, h3, h4, h5, h6, hq, hgy,
    Option.pure_def, Option.bind_eq_bind, Option.some_bind, ite_true, ite_false]
  rw [hsv]
  simp only [Option.some_bind, hgx1]
  rw [setV_eq _ _ _ (by simp only [List.length_set]; omega)]
  simp only [Option.some_bind, hgx2]
  rw [setV_eq _ _ _ (by simp only [List.length_set]; omega)]

/-- C6 (amended): for x different from 0xF, 8xy6 and 8xyE behave as the
claim states in both quirk configurations: with shift_vy disabled the
destination's own prior value is shifted and register[0xF] receives the
shifted-out bit (bit 0 resp. bit 7) of that prior value, register[y] being
untouched whenever y is neither x nor 0xF; with shift_vy enabled
register[x] is first overwritten from register[y] and the same computation
applies to the copied value.  (When x = 0xF the flag write is itself
shifted, so the claim fails there; see the counterexample.) -/
theorem claim_c6_shift_quirk (s : Chip8) (kp : List Nat) (r x y : Nat)
    (hx : x < 16) (hy : y < 16) (hx15 : x ≠ 15) (hv : s.v.length = 16) :
    (s.quirks.shift_vy = false →
      (∃ s', s.execute_opcode (8 * 4096 + x * 256 + y * 16 + 6) kp r = some s' ∧
        s'.v.getD x 0 = s.v.getD x 0 / 2 ∧
        s'.v.getD 15 0 = s.v.getD x 0 % 2 ∧
        (y ≠ x → y ≠ 15 → s'.v.getD y 0 = s.v.getD y 0)) ∧
      (∃ s', s.execute_opcode (8 * 4096 + x * 256 + y * 16 + 0xE) kp r = some s' ∧
        s'.v.getD x 0 = s.v.getD x 0 * 2 % 256 ∧
        s'.v.getD 15 0 = s.v.getD x 0 / 128 % 2 ∧
        (y ≠ x → y ≠ 15 → s'.v.getD y 0 = s.v.getD y 0))) ∧
    (s.quirks.shift_vy = true →
      (∃ s', s.execute_opcode (8 * 4096 + x * 256 + y * 16 + 6) kp r = some s' ∧
        s'.v.getD x 0 = s.v.getD y 0 / 2 ∧
        s'.v.getD 15 0 = s.v.getD y 0 % 2) ∧
      (∃ s', s.execute_opcode (8 * 4096 + x * 256 + y * 16 + 0xE) kp r = some s' ∧
        s'.v.getD x 0 = s.v.getD y 0 * 2 % 256 ∧
        s'.v.getD 15 0 = s.v.getD y 0 / 128 % 2)) := by
  constructor
  · intro hq
    constructor
    · refine ⟨_, execute_8xy6_eq_own s kp r x y hx hy hv hq hx15, ?_, ?_, ?_⟩
      · dsimp only
        rw [getD_set_self _ _ _ (by simp only [List.length_set]; omega),
          Nat.shiftRight_eq_div_pow]
      · dsimp only
        rw [getD_set_ne _ _ _ _ hx15, getD_set_self _ _ _ (by omega),
          Nat.and_one_is_mod]
      · intro hyx hy15
        dsimp only
        rw [getD_set_ne _ _ _ _ (fun hh => hyx hh.symm),
          getD_set_ne _ _ _ _ (fun hh => hy15 hh.symm)]
    · refine ⟨_, execute_8xyE_eq_own s kp r x y hx hy hv hq hx15, ?_, ?_, ?_⟩
      · dsimp only
        rw [getD_set_self _ _ _ (by simp only [List.length_set]; omega),
          Nat.shiftLeft_eq]
      · dsimp only
        rw [getD_set_ne _ _ _ _ hx15, getD_set_self _ _ _ (by omega), and_hi_shift]
      · intro hyx hy15
        dsimp only
        rw [getD_set_ne _ _ _ _ (fun hh => hyx hh.symm),
          getD_set_ne _ _ _ _ (fun hh => hy15 hh.symm)]
  · intro hq
    constructor
    · refine ⟨_, execute_8xy6_eq_vy s kp r x y hx hy hv hq hx15, ?_, ?_⟩
      · dsimp only
        rw [getD_set_self _ _ _ (by simp only [List.length_set]; omega),
          Nat.shiftRight_eq_div_pow]
      · dsimp only
        rw [getD_set_ne _ _ _ _ hx15, getD_set_self _ _ _
          (by simp only [List.length_set]; omega), Nat.and_one_is_mod]
    · refine ⟨_, execute_8xyE_eq_vy s kp r x y hx hy hv hq hx15, ?_, ?_⟩
      · dsimp only
        rw [getD_set_self _ _ _ (by simp only [List.length_set]; omega),
          Nat.shiftLeft_eq]
      · dsimp only
        rw [getD_set_ne _ _ _ _ hx15, getD_set_self _ _ _
          (by simp only [List.length_set]; omega), and_hi_shift]

/-- C6 counterexample: with x = y = 0xF and v[0xF] = 3 (quirk disabled),
the prior value's bit 0 is 1, so the claim demands register[0xF] = 1 after
8FF6; the code first writes the flag 1 into v[0xF] and then shifts that
very register, leaving v[0xF] = 0. -/
theorem claim_c6_counterexample :
    ((baseState ((List.replicate 16 0).set 15 3)).execute_opcode
        0x8FF6 (List.replicate 16 0) 0).map (fun t => t.v.getD 15 0) ≠ some 1 := by
  decide

/-- Concrete register list for the C6 witness: v[2] = 5, v[3] = 0x81. -/
def vW6 : List Nat := ((List.replicate 16 0).set 2 5).set 3 0x81

/-- Concrete machine for the C6 witness. -/
def sW6 : Chip8 := baseState vW6

theorem claim_c6_witness :
    (sW6.quirks.shift_vy = false →
      (∃ s', sW6.execute_opcode (8 * 4096 + 2 * 256 + 3 * 16 + 6) (List.replicate 16 0) 0 =
          some s' ∧
        s'.v.getD 2 0 = sW6.v.getD 2 0 / 2 ∧
        s'.v.getD 15 0 = sW6.v.getD 2 0 % 2 ∧
        ((3 : Nat) ≠ 2 → (3 : Nat) ≠ 15 → s'.v.getD 3 0 = sW6.v.getD 3 0)) ∧
      (∃ s', sW6.execute_opcode (8 * 4096 + 2 * 256 + 3 * 16 + 0xE) (List.replicate 16 0) 0 =
          some s' ∧
        s'.v.getD 2 0 = sW6.v.getD 2 0 * 2 % 256 ∧
        s'.v.getD 15 0 = sW6.v.getD 2 0 / 128 % 2 ∧
        ((3 : Nat) ≠ 2 → (3 : Nat) ≠ 15 → s'.v.getD 3 0 = sW6.v.getD 3 0))) ∧
    (sW6.quirks.shift_vy = true →
      (∃ s', sW6.execute_opcode (8 * 4096 + 2 * 256 + 3 * 16 + 6) (List.replicate 16 0) 0 =
          some s' ∧
        s'.v.getD 2 0 = sW6.v.getD 3 0 / 2 ∧
        s'.v.getD 15 0 = sW6.v.getD 3 0 % 2) ∧
      (∃ s', sW6.execute_opcode (8 * 4096 + 2 * 256 + 3 * 16 + 0xE) (List.replicate 16 0) 0 =
          some s' ∧
        s'.v.getD 2 0 = sW6.v.getD 3 0 * 2 % 256 ∧
        s'.v.getD 15 0 = sW6.v.getD 3 0 / 128 % 2)) :=
  claim_c6_shift_quirk sW6 (List.replicate 16 0) 0 2 3 (by decide) (by decide)
    (by decide) (by decide)

/-! ### Claim C9: ROM loading with silent truncation -/

theorem loadBytes_length : ∀ (data mem : List Nat) (idx : Nat),
    (loadBytes mem idx data).length = mem.length := by
  intro data
  induction data with
  | nil => intro mem idx; rfl
  | cons b rest ih =>
      intro mem idx
      show (loadBytes _ (idx + 1) rest).length = _
      rw [ih]
      split <;> simp

theorem loadBytes_get_low : ∀ (data mem : List Nat) (idx a : Nat), a < idx + 0x200 →
    (loadBytes mem idx data).get? a = mem.get? a := by
  intro data
  induction data with
  | nil => intro mem idx a _; rfl
  | cons b rest ih =>
      intro mem idx a h
      show (loadBytes _ (idx + 1) rest).get? a = _
      rw [ih _ _ _ (by omega)]
      split
      · exact get?_set_ne _ _ _ _ (by omega)
      · rfl

theorem loadBytes_get_high : ∀ (data mem : List Nat) (idx a : Nat),
    idx + 0x200 + data.length ≤ a →
    (loadBytes mem idx data).get? a = mem.get? a := by
  intro data
  induction data with
  | nil => intro mem idx a _; rfl
  | cons b rest ih =>
      intro mem idx a h
      simp only [List.length_cons] at h
      show (loadBytes _ (idx + 1) rest).get? a = _
      rw [ih _ _ _ (by omega)]
      split
      · exact get?_set_ne _ _ _ _ (by omega)
      · rfl

theorem loadBytes_get_hit : ∀ (data mem : List Nat) (idx j : Nat), j < data.length →
    idx + 0x200 + j < mem.length →
    (loadBytes mem idx data).get? (idx + 0x200 + j) = data.get? j := by
  intro data
  induction data with
  | nil => intro mem idx j h _; simp at h
  | cons b rest ih =>
      intro mem idx j hj hlt
      cases j with
      | zero =>
          show (loadBytes _ (idx + 1) rest).get? (idx + 0x200 + 0) = some b
          rw [loadBytes_get_low rest _ _ _ (by omega)]
          rw [if_pos (by omega)]
          simpa using get?_set_self mem (idx + 0x200) b (by omega)
      | succ k =>
          show (loadBytes _ (idx + 1) rest).get? (idx + 0x200 + (k + 1)) = rest.get? k
          have hlen : (if idx + 0x200 < mem.length then mem.set (idx + 0x200) b else mem).length
              = mem.length := by split <;> simp
          have h2 : idx + 1 + 0x200 + k <
              (if idx + 0x200 < mem.length then mem.set (idx + 0x200) b else mem).length := by
            rw [hlen]; omega
          have := ih _ (idx + 1) k (by simpa using Nat.lt_of_succ_lt_succ (by simpa using hj)) h2
          rw [show idx + 0x200 + (k + 1) = idx + 1 + 0x200 + k from by omega]
          exact this

/-- C9: loading copies data[j] to memory[0x200 + j] exactly when
0x200 + j < 4096, silently discards the bytes that do not fit, leaves
every byte below 0x200 (and above the copied range) untouched, and
modifies no other state component. -/
theorem claim_c9_load_truncates (s : Chip8) (data : List Nat)
    (hlen : s.memory.length = 4096) :
    (s.load_rom data).v = s.v ∧ (s.load_rom data).pc = s.pc ∧
    (s.load_rom data).i = s.i ∧ (s.load_rom data).stack = s.stack ∧
    (s.load_rom data).sp = s.sp ∧
    (s.load_rom data).timer_delay = s.timer_delay ∧
    (s.load_rom data).timer_sound = s.timer_sound ∧
    (s.load_rom data).display = s.display ∧
    (s.load_rom data).memory.length = 4096 ∧
    (∀ a, a < 0x200 → (s.load_rom data).memory.get? a = s.memory.get? a) ∧
    (∀ a, 0x200 + data.length ≤ a → (s.load_rom data).memory.get? a = s.memory.get? a) ∧
    (∀ j, j < data.length → 0x200 + j < 4096 →
      (s.load_rom data).memory.get? (0x200 + j) = data.get? j) := by
  refine ⟨rfl, rfl, rfl, rfl, rfl, rfl, rfl, rfl, ?_, ?_, ?_, ?_⟩
  · show (loadBytes s.memory 0 data).length = 4096
    rw [loadBytes_length, hlen]
  · intro a ha
    exact loadBytes_get_low data s.memory 0 a (by omega)
  · intro a ha
    exact loadBytes_get_high data s.memory 0 a (by omega)
  · intro j hj hr
    have := loadBytes_get_hit data s.memory 0 j hj (by omega)
    rw [show (0x200 : Nat) + j = 0 + 0x200 + j from by omega]
    exact this

theorem claim_c9_witness :
    ((baseState (List.replicate 16 0)).load_rom [7, 8, 9]).memory.get? (0x200 + 1) =
        some 8 ∧
    ((baseState (List.replicate 16 0)).load_rom [7, 8, 9]).memory.get? 0x150 =
      (baseState (List.replicate 16 0)).memory.get? 0x150 := by
  have h := claim_c9_load_truncates (baseState (List.replicate 16 0)) [7, 8, 9]
    (List.length_replicate 4096 0)
  exact ⟨h.2.2.2.2.2.2.2.2.2.2.2 1 (by decide) (by decide),
    h.2.2.2.2.2.2.2.2.2.1 0x150 (by decide)⟩

/-! ### Fetch and cycle reduction -/

theorem fetch_eq (s : Chip8) (b1 b2 : Nat)
    (h1 : s.memory.get? s.pc = some b1) (h2 : s.memory.get? (s.pc + 1) = some b2) :
    s.fetch_opcode = some (b1 * 256 + b2, { s with pc := s.pc + 2 }) := by
  simp only [Chip8.fetch_opcode, h1, h2, Option.pure_def, Option.bind_eq_bind,
    Option.some_bind]

theorem tick_eq (s : Chip8) (kp : List Nat) (r b1 b2 : Nat)
    (h1 : s.memory.get? s.pc = some b1) (h2 : s.memory.get? (s.pc + 1) = some b2) :
    s.tick kp r = Chip8.execute_opcode { s with pc := s.pc + 2 } (b1 * 256 + b2) kp r := by
  simp only [Chip8.tick, fetch_eq s b1 b2 h1 h2, Option.pure_def, Option.bind_eq_bind,
    Option.some_bind]

/-! ### Claim C5: call and return stack discipline -/

theorem decode_first_nnn (a m : Nat) (ha : a < 16) (hm : m < 4096) :
    (a * 4096 + m) / 4096 % 16 = a ∧ (a * 4096 + m) % 4096 = m := by
  constructor <;> omega

/-- The `2nnn` arm when the stack has room. -/
theorem execute_2nnn_push (s : Chip8) (kp : List Nat) (r m : Nat) (hm : m < 4096)
    (hsp : s.sp < s.stack.length) :
    s.execute_opcode (2 * 4096 + m) kp r =
      some { s with stack := s.stack.set s.sp s.pc, sp := s.sp + 1, pc := m } := by
  obtain ⟨h1, h5⟩ := decode_first_nnn 2 m (by norm_num) hm
  simp +decide only [Chip8.execute_opcode, h1, h5, hsp, Option.pure_def,
    Option.bind_eq_bind, Option.some_bind, ite_true, ite_false]

/-- The `2nnn` arm when the stack is full: a no-op. -/
theorem execute_2nnn_full (s : Chip8) (kp : List Nat) (r m : Nat) (hm : m < 4096)
    (hsp : ¬ s.sp < s.stack.length) :
    s.execute_opcode (2 * 4096 + m) kp r = some s := by
  obtain ⟨h1, h5⟩ := decode_first_nnn 2 m (by norm_num) hm
  simp +decide only [Chip8.execute_opcode, h1, h5, hsp, Option.pure_def,
    Option.bind_eq_bind, Option.some_bind, ite_true, ite_false]

/-- The `00EE` arm with a nonempty stack. -/
theorem execute_00EE_pop (s : Chip8) (kp : List Nat) (r w : Nat) (hsp : 0 < s.sp)
    (hg : s.stack.get? (s.sp - 1) = some w) :
    s.execute_opcode 0x00EE kp r = some { s with sp := s.sp - 1, pc := w } := by
  simp +decide only [Chip8.execute_opcode, hsp, hg, Option.pure_def,
    Option.bind_eq_bind, Option.some_bind, ite_true, ite_false]

/-- The `00EE` arm with an empty stack: a no-op. -/
theorem execute_00EE_underflow (s : Chip8) (kp : List Nat) (r : Nat) (hsp : s.sp = 0) :
    s.execute_opcode 0x00EE kp r = some s := by
  simp +decide only [Chip8.execute_opcode, hsp, Option.pure_def,
    Option.bind_eq_bind, Option.some_bind, ite_true, ite_false]

/-- C5: fail-safe stack discipline.  With depth below 16, a fetched `2nnn`
pushes the post-fetch program counter, increments the depth and jumps to
nnn, and an immediately following `00EE` restores that exact pushed
program counter (the one that preceded the jump) and the original depth;
a call with the stack at depth 16 and a return at depth 0 change nothing
but the fetch advance of the program counter. -/
theorem claim_c5_call_return (kp : List Nat) (r r2 : Nat) :
    (∀ s : Chip8, ∀ hi lo : Nat, hi < 16 → lo < 256 → s.stack.length = 16 →
      s.sp < 16 →
      s.memory.get? s.pc = some (0x20 + hi) → s.memory.get? (s.pc + 1) = some lo →
      s.tick kp r =
        some { s with
                stack := s.stack.set s.sp (s.pc + 2), sp := s.sp + 1,
                pc := hi * 256 + lo } ∧
      (s.memory.get? (hi * 256 + lo) = some 0 →
        s.memory.get? (hi * 256 + lo + 1) = some 0xEE →
        (s.tick kp r).bind (fun t => t.tick kp r2) =
          some { s with
                  stack := s.stack.set s.sp (s.pc + 2), pc := s.pc + 2 })) ∧
    (∀ s : Chip8, ∀ hi lo : Nat, hi < 16 → lo < 256 → s.stack.length = 16 →
      s.sp = 16 →
      s.memory.get? s.pc = some (0x20 + hi) → s.memory.get? (s.pc + 1) = some lo →
      s.tick kp r = some { s with pc := s.pc + 2 }) ∧
    (∀ s : Chip8, s.sp = 0 →
      s.memory.get? s.pc = some 0 → s.memory.get? (s.pc + 1) = some 0xEE →
      s.tick kp r = some { s with pc := s.pc + 2 }) := by
  refine ⟨?_, ?_, ?_⟩
  · intro s hi lo hhi hlo hst hsp hb1 hb2
    have hop : (0x20 + hi) * 256 + lo = 2 * 4096 + (hi * 256 + lo) := by ring
    have htk : s.tick kp r =
        some { s with
                stack := s.stack.set s.sp (s.pc + 2), sp := s.sp + 1,
                pc := hi * 256 + lo } := by
      rw [tick_eq s kp r _ _ hb1 hb2, hop]
      exact execute_2nnn_push _ kp r _ (by omega) (by simpa [hst] using hsp)
    refine ⟨htk, fun hr1 hr2 => ?_⟩
    rw [htk]
    simp only [Option.some_bind]
    set sc : Chip8 :=
      { s with
          stack := s.stack.set s.sp (s.pc + 2), sp := s.sp + 1,
          pc := hi * 256 + lo } with hsc
    have hb1' : sc.memory.get? sc.pc = some 0 := hr1
    have hb2' : sc.memory.get? (sc.pc + 1) = some 0xEE := hr2
    rw [tick_eq sc kp r2 _ _ hb1' hb2']
    have hpop := execute_00EE_pop { sc with pc := sc.pc + 2 } kp r2 (s.pc + 2)
      (by simp [hsc]) (by
        show (s.stack.set s.sp (s.pc + 2)).get? (s.sp + 1 - 1) = some (s.pc + 2)
        simpa using get?_set_self _ _ _ (by omega))
    rw [show (0 : Nat) * 256 + 0xEE = 0x00EE from by norm_num, hpop]
    simp [hsc]
  · intro s hi lo hhi hlo hst hsp hb1 hb2
    have hop : (0x20 + hi) * 256 + lo = 2 * 4096 + (hi * 256 + lo) := by ring
    rw [tick_eq s kp r _ _ hb1 hb2, hop]
    exact execute_2nnn_full _ kp r _ (by omega) (by simp [hst, hsp])
  · intro s hsp hb1 hb2
    rw [tick_eq s kp r _ _ hb1 hb2]
    rw [show (0 : Nat) * 256 + 0xEE = 0x00EE from by norm_num]
    exact execute_00EE_underflow _ kp r (by simpa using hsp)

theorem get?_replicate_lt : ∀ (n j : Nat), j < n →
    (List.replicate n (0 : Nat)).get? j = some 0 := by
  intro n
  induction n with
  | zero => intro j h; omega
  | succ m ih =>
      intro j h
      cases j with
      | zero => rfl
      | succ k => simpa [List.replicate] using ih k (by omega)

/-- Concrete memory for the C5 witness: a call to 0x300 at the reset
program counter and a return instruction at 0x300. -/
def memW5 : List Nat := ((List.replicate 4096 0).set 0x200 0x23).set 0x301 0xEE

/-- Concrete machine for the C5 witness. -/
def sW5 : Chip8 := { baseState (List.replicate 16 0) with memory := memW5 }

theorem claim_c5_witness :
    (sW5.tick (List.replicate 16 0) 0 =
      some { sW5 with
              stack := sW5.stack.set sW5.sp (sW5.pc + 2), sp := sW5.sp + 1,
              pc := 3 * 256 + 0 }) ∧
    ((sW5.tick (List.replicate 16 0) 0).bind
        (fun t => t.tick (List.replicate 16 0) 0) =
      some { sW5 with
              stack := sW5.stack.set sW5.sp (sW5.pc + 2), pc := sW5.pc + 2 }) ∧
    (Chip8.tick { sW5 with pc := 0x300 } (List.replicate 16 0) 0 =
      some { sW5 with pc := 0x300 + 2 }) := by
  have hlen1 : ((List.replicate 4096 (0 : Nat)).set 0x200 0x23).length = 4096 := by
    rw [List.length_set, List.length_replicate]
  have hlen : memW5.length = 4096 := by
    rw [memW5, List.length_set, hlen1]
  have h200 : memW5.get? 0x200 = some 0x23 := by
    rw [memW5, get?_set_ne _ _ _ _ (by omega)]
    exact get?_set_self _ _ _ (by rw [List.length_replicate]; norm_num)
  have h201 : memW5.get? 0x201 = some 0 := by
    rw [memW5, get?_set_ne _ _ _ _ (by omega), get?_set_ne _ _ _ _ (by omega)]
    exact get?_replicate_lt _ _ (by omega)
  have h300 : memW5.get? 0x300 = some 0 := by
    rw [memW5, get?_set_ne _ _ _ _ (by omega), get?_set_ne _ _ _ _ (by omega)]
    exact get?_replicate_lt _ _ (by omega)
  have h301 : memW5.get? 0x301 = some 0xEE :=
    get?_set_self _ _ _ (by rw [hlen1]; norm_num)
  have hmain := (claim_c5_call_return (List.replicate 16 0) 0 0).1 sW5 3 0
    (by decide) (by decide) (List.length_replicate 16 0) (by decide) h200 h201
  refine ⟨hmain.1, hmain.2 h300 h301, ?_⟩
  exact (claim_c5_call_return (List.replicate 16 0) 0 0).2.2 { sW5 with pc := 0x300 }
    rfl h300 h301

/-! ### Claim C2: unrecognized opcodes -/

/-- The instruction words on which `execute_opcode` really does nothing:
the silent no-op branch of the 0-group (second nibble nonzero) and the
diagnostic-only arms of the 8/E/F groups.  Words 0x00kk other than the
fourth-nibble-E returns are NOT here: they clear the display. -/
def unmatchedOp (op : Nat) : Prop :=
  (op / 4096 % 16 = 0 ∧ op / 256 % 16 ≠ 0) ∨
  (op / 4096 % 16 = 8 ∧ op % 16 ≠ 0 ∧ op % 16 ≠ 1 ∧ op % 16 ≠ 2 ∧ op % 16 ≠ 3 ∧
    op % 16 ≠ 4 ∧ op % 16 ≠ 5 ∧ op % 16 ≠ 6 ∧ op % 16 ≠ 7 ∧ op % 16 ≠ 0xE) ∨
  (op / 4096 % 16 = 0xE ∧ op % 256 ≠ 0x9E ∧ op % 256 ≠ 0xA1) ∨
  (op / 4096 % 16 = 0xF ∧ op % 256 ≠ 0x07 ∧ op % 256 ≠ 0x0A ∧ op % 256 ≠ 0x15 ∧
    op % 256 ≠ 0x18 ∧ op % 256 ≠ 0x1E ∧ op % 256 ≠ 0x29 ∧ op % 256 ≠ 0x33 ∧
    op % 256 ≠ 0x55 ∧ op % 256 ≠ 0x65)

instance (op : Nat) : Decidable (unmatchedOp op) := by
  unfold unmatchedOp; infer_instance

theorem execute_unmatched (s : Chip8) (kp : List Nat) (r op : Nat)
    (h : unmatchedOp op) : s.execute_opcode op kp r = some s := by
  rcases h with ⟨hf, hx⟩ | ⟨hf, h0, h1, h2, h3, h4, h5, h6, h7, hE⟩ |
    ⟨hf, h9E, hA1⟩ | ⟨hf, h07, h0A, h15, h18, h1E, h29, h33, h55, h65⟩
  · simp +decide only [Chip8.execute_opcode, hf, hx, Option.pure_def,
      ite_true, ite_false]
  · simp +decide only [Chip8.execute_opcode, hf, h0, h1, h2, h3, h4, h5, h6, h7, hE,
      Option.pure_def, ite_true, ite_false]
  · simp +decide only [Chip8.execute_opcode, hf, h9E, hA1, Option.pure_def,
      ite_true, ite_false]
  · simp +decide only [Chip8.execute_opcode, hf, h07, h0A, h15, h18, h1E, h29, h33,
      h55, h65, Option.pure_def, ite_true, ite_false]

/-- C2 (amended): for every instruction word in the code's genuinely
unhandled set (first nibble 0 with second nibble nonzero; 8xyk with
k in 8..0xD or 0xF; Exkk with kk neither 9E nor A1; Fxkk outside the
handled sub-opcodes), one cycle changes nothing but the fetch advance of
the program counter.  Words 0x00nn other than 00E0/00EE are excluded:
those with fourth nibble E pop the stack and the others clear the
display (see the counterexample). -/
theorem claim_c2_unmatched_noop (s : Chip8) (kp : List Nat) (r b1 b2 : Nat)
    (h1 : s.memory.get? s.pc = some b1) (h2 : s.memory.get? (s.pc + 1) = some b2)
    (hu : unmatchedOp (b1 * 256 + b2)) :
    s.tick kp r = some { s with pc := s.pc + 2 } := by
  rw [tick_eq s kp r _ _ h1 h2]
  exact execute_unmatched _ kp r _ hu

/-- The clear-screen branch, reached by every word with first and second
nibble 0 whose fourth nibble is not E (so by 0x0000 in particular). -/
theorem execute_clear (s : Chip8) (kp : List Nat) (r op : Nat)
    (hf : op / 4096 % 16 = 0) (hx : op / 256 % 16 = 0) (hn : op % 16 ≠ 14) :
    s.execute_opcode op kp r =
      some { s with display := List.replicate s.display.length 0 } := by
  simp +decide only [Chip8.execute_opcode, hf, hx, hn, Option.pure_def,
    ite_true, ite_false]

/-- Concrete machine for the C2 counterexample: zeroed memory (so the
fetched word is 0x0000) and one lit display pixel. -/
def sW2c : Chip8 :=
  { baseState (List.replicate 16 0) with display := (List.replicate 2048 0).set 0 1 }

/-- C2 counterexample: 0x0000 is a word of the form 0x0nnn other than
00E0/00EE, yet executing one cycle on it clears the display rather than
leaving all non-pc state unchanged. -/
theorem claim_c2_counterexample :
    sW2c.tick (List.replicate 16 0) 0 ≠ some { sW2c with pc := sW2c.pc + 2 } := by
  have hlen : sW2c.display.length = 2048 := by
    show ((List.replicate 2048 (0 : Nat)).set 0 1).length = 2048
    rw [List.length_set, List.length_replicate]
  have htk : sW2c.tick (List.replicate 16 0) 0 =
      some { sW2c with
              pc := sW2c.pc + 2,
              display := List.replicate sW2c.display.length 0 } := by
    rw [tick_eq sW2c _ _ 0 0 (get?_replicate_lt 4096 0x200 (by norm_num))
      (get?_replicate_lt 4096 0x201 (by norm_num))]
    exact execute_clear _ _ _ _ (by norm_num) (by norm_num) (by norm_num)
  rw [hlen] at htk
  rw [htk]
  intro h
  have hd2 : List.replicate 2048 0 = sW2c.display :=
    congrArg Chip8.display (Option.some.inj h)
  have e0 : sW2c.display.get? 0 = some 0 := by
    rw [← hd2]
    exact get?_replicate_lt 2048 0 (by norm_num)
  have e1 : sW2c.display.get? 0 = some 1 :=
    get?_set_self (List.replicate 2048 0) 0 1 (by rw [List.length_replicate]; norm_num)
  rw [e0] at e1
  exact absurd (Option.some.inj e1) (by norm_num)

/-- Concrete machine for the C2 witness: the fetched word is 0x0123, a
0-group word with nonzero second nibble, which the code ignores. -/
def sW2 : Chip8 :=
  { baseState (List.replicate 16 0) with
      memory := ((List.replicate 4096 0).set 0x200 0x01).set 0x201 0x23 }

theorem claim_c2_witness :
    sW2.tick (List.replicate 16 0) 0 = some { sW2 with pc := sW2.pc + 2 } := by
  have hb1 : sW2.memory.get? 0x200 = some 0x01 := by
    show (((List.replicate 4096 0).set 0x200 0x01).set 0x201 0x23).get? 0x200 = some 0x01
    rw [get?_set_ne _ _ _ _ (by omega)]
    exact get?_set_self _ _ _ (by rw [List.length_replicate]; norm_num)
  have hb2 : sW2.memory.get? 0x201 = some 0x23 :=
    get?_set_self _ _ _ (by rw [List.length_set, List.length_replicate]; norm_num)
  exact claim_c2_unmatched_noop sW2 _ 0 0x01 0x23 hb1 hb2 (by decide)

/-! ### Claim C10: Ex9E / ExA1 key indexing -/

theorem decode_first_x_kk (a b k : Nat) (ha : a < 16) (hb : b < 16) (hk : k < 256) :
    (a * 4096 + b * 256 + k) / 4096 % 16 = a
  ∧ (a * 4096 + b * 256 + k) / 256 % 16 = b
  ∧ (a * 4096 + b * 256 + k) % 256 = k := by
  refine ⟨?_, ?_, ?_⟩ <;> omega

/-- The `Ex9E` arm: the keypad is indexed directly by v[x]; an index at or
past the end of the 16-entry snapshot is the out-of-bounds panic,
modelled by `none`. -/
theorem execute_Ex9E_eq (s : Chip8) (kp : List Nat) (r x vx : Nat) (hx : x < 16)
    (hv : s.v.get? x = some vx) :
    s.execute_opcode (0xE * 4096 + x * 256 + 0x9E) kp r =
      (kp.get? vx).bind
        (fun key => some (if key ≠ 0 then { s with pc := s.pc + 2 } else s)) := by
  obtain ⟨h1, h2, h6⟩ := decode_first_x_kk 0xE x 0x9E (by norm_num) hx (by norm_num)
  simp +decide only [Chip8.execute_opcode, h1, h2, h6, hv, Option.pure_def,
    Option.bind_eq_bind, Option.some_bind, ite_true, ite_false]

/-- The `ExA1` arm, dually. -/
theorem execute_ExA1_eq (s : Chip8) (kp : List Nat) (r x vx : Nat) (hx : x < 16)
    (hv : s.v.get? x = some vx) :
    s.execute_opcode (0xE * 4096 + x * 256 + 0xA1) kp r =
      (kp.get? vx).bind
        (fun key => some (if key = 0 then { s with pc := s.pc + 2 } else s)) := by
  obtain ⟨h1, h2, h6⟩ := decode_first_x_kk 0xE x 0xA1 (by norm_num) hx (by norm_num)
  simp +decide only [Chip8.execute_opcode, h1, h2, h6, hv, Option.pure_def,
    Option.bind_eq_bind, Option.some_bind, ite_true, ite_false]

/-- C10: the key-skip instructions index the 16-entry key snapshot
directly by register[x], with no masking: when v[x] is at most 15 the
access is in bounds and the cycle skips exactly as specified, and when
v[x] is 16 or more the access is out of bounds and the cycle faults
(the panic branch of the embedded indexing is reached). -/
theorem claim_c10_key_indexing (s : Chip8) (kp : List Nat) (r x b2 vx : Nat)
    (hx : x < 16) (hk : kp.length = 16)
    (hb1 : s.memory.get? s.pc = some (0xE0 + x))
    (hb2 : s.memory.get? (s.pc + 1) = some b2)
    (hbe : b2 = 0x9E ∨ b2 = 0xA1)
    (hvx : s.v.get? x = some vx) :
    (16 ≤ vx → s.tick kp r = none) ∧
    (vx < 16 →
      s.tick kp r = some { s with pc := s.pc + 2 +
        (if (b2 = 0x9E ∧ kp.getD vx 0 ≠ 0) ∨ (b2 = 0xA1 ∧ kp.getD vx 0 = 0)
         then 2 else 0) }) := by
  have hop : (0xE0 + x) * 256 + b2 = 0xE * 4096 + x * 256 + b2 := by ring
  have hnone : 16 ≤ vx → kp.get? vx = none := by
    intro h
    rw [List.get?_eq_none]
    omega
  have hsome : vx < 16 → kp.get? vx = some (kp.getD vx 0) := fun h =>
    get?_eq_some_getD _ _ (by omega)
  have hvx2 : ({ s with pc := s.pc + 2 } : Chip8).v.get? x = some vx := hvx
  rcases hbe with hbe | hbe <;> subst hbe <;>
    rw [tick_eq s kp r _ _ hb1 hb2] <;> constructor
  · intro h
    rw [hop, execute_Ex9E_eq _ kp r x vx hx hvx2, hnone h]
    rfl
  · intro h
    rw [hop, execute_Ex9E_eq _ kp r x vx hx hvx2, hsome h]
    simp only [Option.some_bind]
    by_cases hkey : kp.getD vx 0 = 0
    · rw [if_neg (fun hh => hh hkey), if_neg (by
        intro hcontra
        rcases hcontra with ⟨_, hne⟩ | ⟨hab, _⟩
        · exact hne hkey
        · norm_num at hab)]
    · rw [if_pos hkey, if_pos (Or.inl ⟨by trivial, hkey⟩)]
  · intro h
    rw [hop, execute_ExA1_eq _ kp r x vx hx hvx2, hnone h]
    rfl
  · intro h
    rw [hop, execute_ExA1_eq _ kp r x vx hx hvx2, hsome h]
    simp only [Option.some_bind]
    by_cases hkey : kp.getD vx 0 = 0
    · rw [if_pos hkey, if_pos (Or.inr ⟨by trivial, hkey⟩)]
    · rw [if_neg hkey, if_neg (by
        intro hcontra
        rcases hcontra with ⟨hab, _⟩ | ⟨_, hz⟩
        · norm_num at hab
        · exact hkey hz)]

/-- Concrete machine for the C10 witness: v[0] = 20 (past the 16-key
snapshot) and the fetched word is E09E. -/
def sW10 : Chip8 :=
  { baseState ((List.replicate 16 0).set 0 20) with
      memory := ((List.replicate 4096 0).set 0x200 0xE0).set 0x201 0x9E }

theorem claim_c10_witness : sW10.tick (List.replicate 16 0) 0 = none := by
  have hb1 : sW10.memory.get? 0x200 = some 0xE0 := by
    show (((List.replicate 4096 0).set 0x200 0xE0).set 0x201 0x9E).get? 0x200 = some 0xE0
    rw [get?_set_ne _ _ _ _ (by omega)]
    exact get?_set_self _ _ _ (by rw [List.length_replicate]; norm_num)
  have hb2 : sW10.memory.get? 0x201 = some 0x9E :=
    get?_set_self _ _ _ (by rw [List.length_set, List.length_replicate]; norm_num)
  exact (claim_c10_key_indexing sW10 (List.replicate 16 0) 0 0 0x9E 20 (by norm_num)
    (by decide) (by exact hb1) (by exact hb2) (Or.inl rfl) (by decide)).1 (by norm_num)

/-! ### Claim C7: the Fx0A blocking key wait -/

/-- The scan step of `Fx0A` (named for the proofs; `keyScan` unfolds to a
fold of this function). -/
def scanF (kp : List Nat) : Option Nat → Nat → Option Nat :=
  fun acc j => if kp.getD j 0 ≠ 0 then some j else acc

theorem scanF_none_iff : ∀ (kp : List Nat) (n : Nat),
    ((List.range n).foldl (scanF kp) none = none ↔ ∀ j, j < n → kp.getD j 0 = 0) := by
  intro kp n
  induction n with
  | zero => simp
  | succ m ih =>
      rw [List.range_succ, List.foldl_append]
      simp only [List.foldl_cons, List.foldl_nil]
      by_cases hm : kp.getD m 0 ≠ 0
      · rw [show scanF kp ((List.range m).foldl (scanF kp) none) m = some m from
          if_pos hm]
        constructor
        · intro h; cases h
        · intro h; exact absurd (h m (by omega)) hm
      · rw [show scanF kp ((List.range m).foldl (scanF kp) none) m
            = (List.range m).foldl (scanF kp) none from if_neg hm]
        rw [ih]
        constructor
        · intro h j hj
          by_cases hjm : j = m
          · subst hjm; simpa using hm
          · exact h j (by omega)
        · intro h j hj
          exact h j (by omega)

theorem scanF_some : ∀ (kp : List Nat) (n j : Nat),
    (List.range n).foldl (scanF kp) none = some j →
    j < n ∧ kp.getD j 0 ≠ 0 ∧ ∀ jj, j < jj → jj < n → kp.getD jj 0 = 0 := by
  intro kp n
  induction n with
  | zero => intro j h; simp at h
  | succ m ih =>
      intro j h
      rw [List.range_succ, List.foldl_append] at h
      simp only [List.foldl_cons, List.foldl_nil] at h
      by_cases hm : kp.getD m 0 ≠ 0
      · rw [show scanF kp ((List.range m).foldl (scanF kp) none) m = some m from
          if_pos hm] at h
        cases h
        exact ⟨by omega, hm, fun jj h1 h2 => by omega⟩
      · rw [show scanF kp ((List.range m).foldl (scanF kp) none) m
            = (List.range m).foldl (scanF kp) none from if_neg hm] at h
        obtain ⟨h1, h2, h3⟩ := ih j h
        refine ⟨by omega, h2, fun jj hj1 hj2 => ?_⟩
        by_cases hjm : jj = m
        · subst hjm; simpa using hm
        · exact h3 jj hj1 (by omega)

/-- Reduction of the `Fx0A` arm. -/
theorem execute_Fx0A_eq (s : Chip8) (kp : List Nat) (r x : Nat)
    (hx : x < 16) (hv : s.v.length = 16) :
    s.execute_opcode (0xF * 4096 + x * 256 + 0x0A) kp r =
      (match keyScan kp with
        | some j => some { s with v := s.v.set x j }
        | none => some { s with pc := s.pc - 2 }) := by
  obtain ⟨h1, h2, h6⟩ := decode_first_x_kk 0xF x 0x0A (by norm_num) hx (by norm_num)
  simp +decide only [Chip8.execute_opcode, h1, h2, h6, Option.pure_def,
    Option.bind_eq_bind, Option.some_bind, ite_true, ite_false]
  rcases hkk : keyScan kp with _ | j
  · rfl
  · exact setV_eq _ _ _ (by omega)

/-- C7: executing a fetched Fx0A with no key pressed rewinds the program
counter to the Fx0A instruction itself and changes nothing else; with at
least one key pressed it stores in register[x] the pressed index that the
ascending scan reaches last (the largest pressed index) and keeps the
post-fetch program counter. -/
theorem claim_c7_key_wait (s : Chip8) (kp : List Nat) (r x : Nat)
    (hx : x < 16) (hv : s.v.length = 16) (hk : kp.length = 16)
    (hb1 : s.memory.get? s.pc = some (0xF0 + x))
    (hb2 : s.memory.get? (s.pc + 1) = some 0x0A) :
    ((∀ j, j < 16 → kp.getD j 0 = 0) → s.tick kp r = some s) ∧
    (∀ j0, j0 < 16 → kp.getD j0 0 ≠ 0 →
      ∃ j, j < 16 ∧ kp.getD j 0 ≠ 0 ∧ (∀ jj, j < jj → jj < 16 → kp.getD jj 0 = 0) ∧
        s.tick kp r = some { s with pc := s.pc + 2, v := s.v.set x j }) := by
  have hop : (0xF0 + x) * 256 + 0x0A = 0xF * 4096 + x * 256 + 0x0A := by ring
  have hexec := execute_Fx0A_eq { s with pc := s.pc + 2 } kp r x hx hv
  constructor
  · intro hz
    have hks : keyScan kp = none := by
      show (List.range kp.length).foldl (scanF kp) none = none
      rw [scanF_none_iff]
      intro j hj
      exact hz j (by omega)
    rw [tick_eq s kp r _ _ hb1 hb2, hop, hexec, hks]
    rw [show s.pc + 2 - 2 = s.pc from by omega]
  · intro j0 hj0 hp0
    rcases hkk : keyScan kp with _ | j
    · exfalso
      have := (scanF_none_iff kp kp.length).1 hkk j0 (by omega)
      exact hp0 this
    · obtain ⟨h1, h2, h3⟩ := scanF_some kp kp.length j hkk
      refine ⟨j, by omega, h2, fun jj ha hb => h3 jj ha (by omega), ?_⟩
      rw [tick_eq s kp r _ _ hb1 hb2, hop, hexec, hkk]

/-- Keypad for the C7 witness: keys 3 and 7 pressed. -/
def kpW7 : List Nat := ((List.replicate 16 0).set 3 1).set 7 1

/-- Concrete machine for the C7 witness: the fetched word is F20A. -/
def sW7 : Chip8 :=
  { baseState (List.replicate 16 0) with
      memory := ((List.replicate 4096 0).set 0x200 0xF2).set 0x201 0x0A }

theorem claim_c7_witness :
    (sW7.tick (List.replicate 16 0) 0 = some sW7) ∧
    (∃ j, j < 16 ∧ kpW7.getD j 0 ≠ 0 ∧
      (∀ jj, j < jj → jj < 16 → kpW7.getD jj 0 = 0) ∧
      sW7.tick kpW7 0 = some { sW7 with pc := sW7.pc + 2, v := sW7.v.set 2 j }) := by
  have hb1 : sW7.memory.get? 0x200 = some 0xF2 := by
    show (((List.replicate 4096 0).set 0x200 0xF2).set 0x201 0x0A).get? 0x200 = some 0xF2
    rw [get?_set_ne _ _ _ _ (by omega)]
    exact get?_set_self _ _ _ (by rw [List.length_replicate]; norm_num)
  have hb2 : sW7.memory.get? 0x201 = some 0x0A :=
    get?_set_self _ _ _ (by rw [List.length_set, List.length_replicate]; norm_num)
  constructor
  · exact (claim_c7_key_wait sW7 (List.replicate 16 0) 0 2 (by norm_num) (by decide)
      (by decide) hb1 hb2).1 (by decide)
  · exact (claim_c7_key_wait sW7 kpW7 0 2 (by norm_num) (by decide)
      (by decide) hb1 hb2).2 3 (by norm_num) (by decide)

/-! ### Claim C8: the stack-depth invariant -/

theorem setV_eq_some (s : Chip8) (j val : Nat) (s' : Chip8)
    (h : setV s j val = some s') : s' = { s with v := s.v.set j val } := by
  unfold setV at h
  split at h
  · exact (Option.some.inj h).symm
  · cases h

theorem setMem_eq_some (s : Chip8) (a val : Nat) (s' : Chip8)
    (h : setMem s a val = some s') : s' = { s with memory := s.memory.set a val } := by
  unfold setMem at h
  split at h
  · exact (Option.some.inj h).symm
  · cases h

theorem storeSeq_sp : ∀ (js : List Nat) (s s' : Chip8),
    storeSeq s js = some s' → s'.sp = s.sp := by
  intro js
  induction js with
  | nil =>
      intro s s' h
      injection h with h2
      rw [← h2]
  | cons j rest ih =>
      intro s s' h
      unfold storeSeq at h
      rcases hx : s.v.get? j with _ | vj <;> rw [hx] at h
      · cases h
      · simp only [Option.pure_def, Option.bind_eq_bind, Option.some_bind] at h
        rcases hm : setMem s (s.i + j) vj with _ | s1 <;> rw [hm] at h
        · cases h
        · simp only [Option.some_bind] at h
          have e1 := setMem_eq_some _ _ _ _ hm
          rw [ih s1 s' h, e1]

theorem loadSeq_sp : ∀ (js : List Nat) (s s' : Chip8),
    loadSeq s js = some s' → s'.sp = s.sp := by
  intro js
  induction js with
  | nil =>
      intro s s' h
      injection h with h2
      rw [← h2]
  | cons j rest ih =>
      intro s s' h
      unfold loadSeq at h
      rcases hx : s.memory.get? (s.i + j) with _ | mj <;> rw [hx] at h
      · cases h
      · simp only [Option.pure_def, Option.bind_eq_bind, Option.some_bind] at h
        rcases hm : setV s j mj with _ | s1 <;> rw [hm] at h
        · cases h
        · simp only [Option.some_bind] at h
          have e1 := setV_eq_some _ _ _ _ hm
          rw [ih s1 s' h, e1]

theorem le_of_some_eq (X s' : Chip8) (h : some X = some s') (hX : X.sp ≤ 16) :
    s'.sp ≤ 16 := by
  injection h with h2
  rw [← h2]
  exact hX

theorem setV_sp_eq (s : Chip8) (j val : Nat) (s' : Chip8)
    (h : setV s j val = some s') : s'.sp = s.sp := by
  rw [setV_eq_some _ _ _ _ h]

theorem setMem_sp_eq (s : Chip8) (a val : Nat) (s' : Chip8)
    (h : setMem s a val = some s') : s'.sp = s.sp := by
  rw [setMem_eq_some _ _ _ _ h]

set_option maxHeartbeats 2000000 in
theorem execute_sp_le (s : Chip8) (op : Nat) (kp : List Nat) (r : Nat) (s' : Chip8)
    (hst : s.stack.length = 16) (hsp : s.sp ≤ 16)
    (h : s.execute_opcode op kp r = some s') : s'.sp ≤ 16 := by
  have hf : op / 4096 % 16 = 0 ∨ op / 4096 % 16 = 1 ∨ op / 4096 % 16 = 2 ∨
      op / 4096 % 16 = 3 ∨ op / 4096 % 16 = 4 ∨ op / 4096 % 16 = 5 ∨
      op / 4096 % 16 = 6 ∨ op / 4096 % 16 = 7 ∨ op / 4096 % 16 = 8 ∨
      op / 4096 % 16 = 9 ∨ op / 4096 % 16 = 10 ∨ op / 4096 % 16 = 11 ∨
      op / 4096 % 16 = 12 ∨ op / 4096 % 16 = 13 ∨ op / 4096 % 16 = 14 ∨
      op / 4096 % 16 = 15 := by omega
  unfold Chip8.execute_opcode at h
  simp only [Option.pure_def, Option.bind_eq_bind] at h
  rcases hf with hf | hf | hf | hf | hf | hf | hf | hf | hf | hf | hf | hf | hf |
    hf | hf | hf <;> rw [hf] at h <;>
    simp +decide only [ite_true, ite_false] at h
  · -- 0-group
    split at h
    · split at h
      · split at h
        · rcases hg : s.stack.get? (s.sp - 1) with _ | ret <;> rw [hg] at h
          · cases h
          · simp only [Option.some_bind] at h
            exact le_of_some_eq _ _ h (by simp; omega)
        · exact le_of_some_eq _ _ h hsp
      · exact le_of_some_eq _ _ h hsp
    · exact le_of_some_eq _ _ h hsp
  · -- 1nnn
    exact le_of_some_eq _ _ h hsp
  · -- 2nnn
    split at h
    · exact le_of_some_eq _ _ h (by simp; omega)
    · exact le_of_some_eq _ _ h hsp
  · -- 3xkk
    rcases hx : s.v.get? (op / 256 % 16) with _ | vx <;> rw [hx] at h
    · cases h
    · simp only [Option.some_bind] at h
      injection h with h2
      rw [← h2]
      split <;> simpa using hsp
  · -- 4xkk
    rcases hx : s.v.get? (op / 256 % 16) with _ | vx <;> rw [hx] at h
    · cases h
    · simp only [Option.some_bind] at h
      injection h with h2
      rw [← h2]
      split <;> simpa using hsp
  · -- 5xy0
    rcases hx : s.v.get? (op / 256 % 16) with _ | vx <;> rw [hx] at h
    · cases h
    · simp only [Option.some_bind] at h
      rcases hy : s.v.get? (op / 16 % 16) with _ | vy <;> rw [hy] at h
      · cases h
      · simp only [Option.some_bind] at h
        injection h with h2
        rw [← h2]
        split <;> simpa using hsp
  · -- 6xkk
    rw [setV_sp_eq _ _ _ _ h]; exact hsp
  · -- 7xkk
    rcases hx : s.v.get? (op / 256 % 16) with _ | vx <;> rw [hx] at h
    · cases h
    · simp only [Option.some_bind] at h
      rw [setV_sp_eq _ _ _ _ h]; exact hsp
  · -- 8-group
    have hn : op % 16 = 0 ∨ op % 16 = 1 ∨ op % 16 = 2 ∨ op % 16 = 3 ∨ op % 16 = 4 ∨
        op % 16 = 5 ∨ op % 16 = 6 ∨ op % 16 = 7 ∨ op % 16 = 14 ∨
        (op % 16 ≠ 0 ∧ op % 16 ≠ 1 ∧ op % 16 ≠ 2 ∧ op % 16 ≠ 3 ∧ op % 16 ≠ 4 ∧
          op % 16 ≠ 5 ∧ op % 16 ≠ 6 ∧ op % 16 ≠ 7 ∧ op % 16 ≠ 14) := by omega
    rcases hn with hn | hn | hn | hn | hn | hn | hn | hn | hn | hn
    · -- 8xy0
      rw [hn] at h
      simp +decide only [ite_true, ite_false] at h
      rcases hy : s.v.get? (op / 16 % 16) with _ | vy <;> rw [hy] at h
      · cases h
      · simp only [Option.some_bind] at h
        rw [setV_sp_eq _ _ _ _ h]; exact hsp
    · -- 8xy1
      rw [hn] at h
      simp +decide only [ite_true, ite_false] at h
      rcases hx : s.v.get? (op / 256 % 16) with _ | vx <;> rw [hx] at h
      · cases h
      · simp only [Option.some_bind] at h
        rcases hy : s.v.get? (op / 16 % 16) with _ | vy <;> rw [hy] at h
        · cases h
        · simp only [Option.some_bind] at h
          rw [setV_sp_eq _ _ _ _ h]; exact hsp
    · -- 8xy2
      rw [hn] at h
      simp +decide only [ite_true, ite_false] at h
      rcases hx : s.v.get? (op / 256 % 16) with _ | vx <;> rw [hx] at h
      · cases h
      · simp only [Option.some_bind] at h
        rcases hy : s.v.get? (op / 16 % 16) with _ | vy <;> rw [hy] at h
        · cases h
        · simp only [Option.some_bind] at h
          rw [setV_sp_eq _ _ _ _ h]; exact hsp
    · -- 8xy3
      rw [hn] at h
      simp +decide only [ite_true, ite_false] at h
      rcases hx : s.v.get? (op / 256 % 16) with _ | vx <;> rw [hx] at h
      · cases h
      · simp only [Option.some_bind] at h
        rcases hy : s.v.get? (op / 16 % 16) with _ | vy <;> rw [hy] at h
        · cases h
        · simp only [Option.some_bind] at h
          rw [setV_sp_eq _ _ _ _ h]; exact hsp
    · -- 8xy4
      rw [hn] at h
      simp +decide only [ite_true, ite_false] at h
      rcases hx : s.v.get? (op / 256 % 16) with _ | vx <;> rw [hx] at h
      · cases h
      · simp only [Option.some_bind] at h
        rcases hy : s.v.get? (op / 16 % 16) with _ | vy <;> rw [hy] at h
        · cases h
        · simp only [Option.some_bind] at h
          rcases hs1 : setV s 15 (if 256 ≤ vx + vy then 1 else 0) with _ | s1 <;>
            rw [hs1] at h
          · cases h
          · simp only [Option.some_bind] at h
            rw [setV_sp_eq _ _ _ _ h, setV_sp_eq _ _ _ _ hs1]; exact hsp
    · -- 8xy5
      rw [hn] at h
      simp +decide only [ite_true, ite_false] at h
      rcases hx : s.v.get? (op / 256 % 16) with _ | vx <;> rw [hx] at h
      · cases h
      · simp only [Option.some_bind] at h
        rcases hy : s.v.get? (op / 16 % 16) with _ | vy <;> rw [hy] at h
        · cases h
        · simp only [Option.some_bind] at h
          rcases hs1 : setV s 15 (if vy < vx then 1 else 0) with _ | s1 <;> rw [hs1] at h
          · cases h
          · simp only [Option.some_bind] at h
            rcases hx2 : s1.v.get? (op / 256 % 16) with _ | vx2 <;> rw [hx2] at h
            · cases h
            · simp only [Option.some_bind] at h
              rcases hy2 : s1.v.get? (op / 16 % 16) with _ | vy2 <;> rw [hy2] at h
              · cases h
              · simp only [Option.some_bind] at h
                rw [setV_sp_eq _ _ _ _ h, setV_sp_eq _ _ _ _ hs1]; exact hsp
    · -- 8xy6
      rw [hn] at h
      simp +decide only [ite_true, ite_false] at h
      rcases hq : s.quirks.shift_vy with _ | _ <;> simp only [hq,
        Bool.false_eq_true, Bool.true_eq_false, ite_true, ite_false] at h
      · simp only [Option.some_bind] at h
        rcases hx1 : s.v.get? (op / 256 % 16) with _ | vx1 <;> rw [hx1] at h
        · cases h
        · simp only [Option.some_bind] at h
          rcases hs2 : setV s 15 (vx1 &&& 1) with _ | s2 <;> rw [hs2] at h
          · cases h
          · simp only [Option.some_bind] at h
            rcases hx2 : s2.v.get? (op / 256 % 16) with _ | vx2 <;> rw [hx2] at h
            · cases h
            · simp only [Option.some_bind] at h
              rw [setV_sp_eq _ _ _ _ h, setV_sp_eq _ _ _ _ hs2]; exact hsp
      · rcases hy : s.v.get? (op / 16 % 16) with _ | vy <;> rw [hy] at h
        · cases h
        · simp only [Option.some_bind] at h
          rcases hs1 : setV s (op / 256 % 16) vy with _ | s1 <;> rw [hs1] at h
          · cases h
          · simp only [Option.some_bind] at h
            rcases hx1 : s1.v.get? (op / 256 % 16) with _ | vx1 <;> rw [hx1] at h
            · cases h
            · simp only [Option.some_bind] at h
              rcases hs2 : setV s1 15 (vx1 &&& 1) with _ | s2 <;> rw [hs2] at h
              · cases h
              · simp only [Option.some_bind] at h
                rcases hx2 : s2.v.get? (op / 256 % 16) with _ | vx2 <;> rw [hx2] at h
                · cases h
                · simp only [Option.some_bind] at h
                  rw [setV_sp_eq _ _ _ _ h, setV_sp_eq _ _ _ _ hs2,
                    setV_sp_eq _ _ _ _ hs1]
                  exact hsp
    · -- 8xy7
      rw [hn] at h
      simp +decide only [ite_true, ite_false] at h
      rcases hx : s.v.get? (op / 256 % 16) with _ | vx <;> rw [hx] at h
      · cases h
      · simp only [Option.some_bind] at h
        rcases hy : s.v.get? (op / 16 % 16) with _ | vy <;> rw [hy] at h
        · cases h
        · simp only [Option.some_bind] at h
          rcases hs1 : setV s 15 (if vx < vy then 1 else 0) with _ | s1 <;> rw [hs1] at h
          · cases h
          · simp only [Option.some_bind] at h
            rcases hx2 : s1.v.get? (op / 256 % 16) with _ | vx2 <;> rw [hx2] at h
            · cases h
            · simp only [Option.some_bind] at h
              rcases hy2 : s1.v.get? (op / 16 % 16) with _ | vy2 <;> rw [hy2] at h
              · cases h
              · simp only [Option.some_bind] at h
                rw [setV_sp_eq _ _ _ _ h, setV_sp_eq _ _ _ _ hs1]; exact hsp
    · -- 8xyE
      rw [hn] at h
      simp +decide only [ite_true, ite_false] at h
      rcases hq : s.quirks.shift_vy with _ | _ <;> simp only [hq,
        Bool.false_eq_true, Bool.true_eq_false, ite_true, ite_false] at h
      · simp only [Option.some_bind] at h
        rcases hx1 : s.v.get? (op / 256 % 16) with _ | vx1 <;> rw [hx1] at h
        · cases h
        · simp only [Option.some_bind] at h
          rcases hs2 : setV s 15 ((vx1 &&& 0x80) >>> 7) with _ | s2 <;> rw [hs2] at h
          · cases h
          · simp only [Option.some_bind] at h
            rcases hx2 : s2.v.get? (op / 256 % 16) with _ | vx2 <;> rw [hx2] at h
            · cases h
            · simp only [Option.some_bind] at h
              rw [setV_sp_eq _ _ _ _ h, setV_sp_eq _ _ _ _ hs2]; exact hsp
      · rcases hy : s.v.get? (op / 16 % 16) with _ | vy <;> rw [hy] at h
        · cases h
        · simp only [Option.some_bind] at h
          rcases hs1 : setV s (op / 256 % 16) vy with _ | s1 <;> rw [hs1] at h
          · cases h
          · simp only [Option.some_bind] at h
            rcases hx1 : s1.v.get? (op / 256 % 16) with _ | vx1 <;> rw [hx1] at h
            · cases h
            · simp only [Option.some_bind] at h
              rcases hs2 : setV s1 15 ((vx1 &&& 0x80) >>> 7) with _ | s2 <;> rw [hs2] at h
              · cases h
              · simp only [Option.some_bind] at h
                rcases hx2 : s2.v.get? (op / 256 % 16) with _ | vx2 <;> rw [hx2] at h
                · cases h
                · simp only [Option.some_bind] at h
                  rw [setV_sp_eq _ _ _ _ h, setV_sp_eq _ _ _ _ hs2,
                    setV_sp_eq _ _ _ _ hs1]
                  exact hsp
    · -- diagnostic arm
      obtain ⟨e0, e1, e2, e3, e4, e5, e6, e7, eE⟩ := hn
      simp +decide only [e0, e1, e2, e3, e4, e5, e6, e7, eE, ite_true, ite_false] at h
      exact le_of_some_eq _ _ h hsp
  · -- 9xy0
    rcases hx : s.v.get? (op / 256 % 16) with _ | vx <;> rw [hx] at h
    · cases h
    · simp only [Option.some_bind] at h
      rcases hy : s.v.get? (op / 16 % 16) with _ | vy <;> rw [hy] at h
      · cases h
      · simp only [Option.some_bind] at h
        injection h with h2
        rw [← h2]
        split <;> simpa using hsp
  · -- Annn
    exact le_of_some_eq _ _ h hsp
  · -- Bnnn
    rcases hx : s.v.get? 0 with _ | v0 <;> rw [hx] at h
    · cases h
    · simp only [Option.some_bind] at h
      exact le_of_some_eq _ _ h hsp
  · -- Cxkk
    rw [setV_sp_eq _ _ _ _ h]; exact hsp
  · -- Dxyn
    rcases hx : s.v.get? (op / 256 % 16) with _ | vx <;> rw [hx] at h
    · cases h
    · simp only [Option.some_bind] at h
      rcases hy : s.v.get? (op / 16 % 16) with _ | vy <;> rw [hy] at h
      · cases h
      · simp only [Option.some_bind] at h
        rcases hd : drawRows s.memory s.i vx vy (List.range (op % 16)) (s.display, 0)
          with _ | acc <;> rw [hd] at h
        · cases h
        · simp only [Option.some_bind] at h
          rw [setV_sp_eq _ _ _ _ h]; exact hsp
  · -- E-group
    split at h
    · rcases hx : s.v.get? (op / 256 % 16) with _ | vx <;> rw [hx] at h
      · cases h
      · simp only [Option.some_bind] at h
        rcases hk : kp.get? vx with _ | key <;> rw [hk] at h
        · cases h
        · simp only [Option.some_bind] at h
          injection h with h2
          rw [← h2]
          split <;> simpa using hsp
    · split at h
      · rcases hx : s.v.get? (op / 256 % 16) with _ | vx <;> rw [hx] at h
        · cases h
        · simp only [Option.some_bind] at h
          rcases hk : kp.get? vx with _ | key <;> rw [hk] at h
          · cases h
          · simp only [Option.some_bind] at h
            injection h with h2
            rw [← h2]
            split <;> simpa using hsp
      · exact le_of_some_eq _ _ h hsp
  · -- F-group
    have hk2 : op % 256 = 0x07 ∨ op % 256 = 0x0A ∨ op % 256 = 0x15 ∨
        op % 256 = 0x18 ∨ op % 256 = 0x1E ∨ op % 256 = 0x29 ∨ op % 256 = 0x33 ∨
        op % 256 = 0x55 ∨ op % 256 = 0x65 ∨
        (op % 256 ≠ 0x07 ∧ op % 256 ≠ 0x0A ∧ op % 256 ≠ 0x15 ∧ op % 256 ≠ 0x18 ∧
          op % 256 ≠ 0x1E ∧ op % 256 ≠ 0x29 ∧ op % 256 ≠ 0x33 ∧ op % 256 ≠ 0x55 ∧
          op % 256 ≠ 0x65) := by omega
    rcases hk2 with hk2 | hk2 | hk2 | hk2 | hk2 | hk2 | hk2 | hk2 | hk2 | hk2
    · -- Fx07
      rw [hk2] at h
      simp +decide only [ite_true, ite_false] at h
      rw [setV_sp_eq _ _ _ _ h]; exact hsp
    · -- Fx0A
      rw [hk2] at h
      simp +decide only [ite_true, ite_false] at h
      rcases hks : keyScan kp with _ | j <;> rw [hks] at h
      · exact le_of_some_eq _ _ h hsp
      · rw [setV_sp_eq _ _ _ _ h]; exact hsp
    · -- Fx15
      rw [hk2] at h
      simp +decide only [ite_true, ite_false] at h
      rcases hx : s.v.get? (op / 256 % 16) with _ | vx <;> rw [hx] at h
      · cases h
      · simp only [Option.some_bind] at h
        exact le_of_some_eq _ _ h hsp
    · -- Fx18
      rw [hk2] at h
      simp +decide only [ite_true, ite_false] at h
      rcases hx : s.v.get? (op / 256 % 16) with _ | vx <;> rw [hx] at h
      · cases h
      · simp only [Option.some_bind] at h
        exact le_of_some_eq _ _ h hsp
    · -- Fx1E
      rw [hk2] at h
      simp +decide only [ite_true, ite_false] at h
      rcases hx : s.v.get? (op / 256 % 16) with _ | vx <;> rw [hx] at h
      · cases h
      · simp only [Option.some_bind] at h
        exact le_of_some_eq _ _ h hsp
    · -- Fx29
      rw [hk2] at h
      simp +decide only [ite_true, ite_false] at h
      rcases hx : s.v.get? (op / 256 % 16) with _ | vx <;> rw [hx] at h
      · cases h
      · simp only [Option.some_bind] at h
        exact le_of_some_eq _ _ h hsp
    · -- Fx33
      rw [hk2] at h
      simp +decide only [ite_true, ite_false] at h
      rcases hx : s.v.get? (op / 256 % 16) with _ | num <;> rw [hx] at h
      · cases h
      · simp only [Option.some_bind] at h
        rcases hm1 : setMem s s.i (num / 100) with _ | s1 <;> rw [hm1] at h
        · cases h
        · simp only [Option.some_bind] at h
          rcases hm2 : setMem s1 (s.i + 1) (num % 100 / 10) with _ | s2 <;> rw [hm2] at h
          · cases h
          · simp only [Option.some_bind] at h
            rw [setMem_sp_eq _ _ _ _ h, setMem_sp_eq _ _ _ _ hm2,
              setMem_sp_eq _ _ _ _ hm1]
            exact hsp
    · -- Fx55
      rw [hk2] at h
      simp +decide only [ite_true, ite_false] at h
      rw [storeSeq_sp _ _ _ h]; exact hsp
    · -- Fx65
      rw [hk2] at h
      simp +decide only [ite_true, ite_false] at h
      rw [loadSeq_sp _ _ _ h]; exact hsp
    · -- diagnostic arm
      obtain ⟨e1, e2, e3, e4, e5, e6, e7, e8, e9⟩ := hk2
      simp +decide only [e1, e2, e3, e4, e5, e6, e7, e8, e9, ite_true, ite_false] at h
      exact le_of_some_eq _ _ h hsp

/-- A successful fetch only advances the program counter by 2. -/
theorem fetch_opcode_eq_some (s : Chip8) (pr : Nat × Chip8)
    (h : s.fetch_opcode = some pr) : pr.2 = { s with pc := s.pc + 2 } := by
  unfold Chip8.fetch_opcode at h
  rcases h1 : s.memory.get? s.pc with _ | b1 <;> rw [h1] at h
  · cases h
  · simp only [Option.pure_def, Option.bind_eq_bind, Option.some_bind] at h
    rcases h2 : s.memory.get? (s.pc + 1) with _ | b2 <;> rw [h2] at h
    · cases h
    · simp only [Option.some_bind] at h
      injection h with h3
      rw [← h3]

/-- C8: the stack-depth invariant depth ≤ 16 (depth is a natural number,
so 0 ≤ depth is automatic) holds in the freshly constructed machine
(depth 0 exactly) and is preserved by loading, by the timer tick, and by
one execution cycle of any opcode that completes. -/
theorem claim_c8_stack_invariant :
    (∀ q : Quirks, (Chip8.new q).sp = 0) ∧
    (∀ (s : Chip8) (data : List Nat), (s.load_rom data).sp = s.sp) ∧
    (∀ s : Chip8, s.update_timers.sp = s.sp) ∧
    (∀ (s : Chip8) (kp : List Nat) (r : Nat) (s' : Chip8), s.stack.length = 16 →
      s.sp ≤ 16 → s.tick kp r = some s' → s'.sp ≤ 16) := by
  refine ⟨fun q => rfl, fun s data => rfl, fun s => rfl, ?_⟩
  intro s kp r s' hst hsp htk
  unfold Chip8.tick at htk
  rcases hfo : s.fetch_opcode with _ | pr <;> rw [hfo] at htk
  · cases htk
  · simp only [Option.pure_def, Option.bind_eq_bind, Option.some_bind] at htk
    have hpr := fetch_opcode_eq_some s pr hfo
    have hst2 : pr.2.stack.length = 16 := by rw [hpr]; exact hst
    have hsp2 : pr.2.sp ≤ 16 := by rw [hpr]; exact hsp
    exact execute_sp_le pr.2 pr.1 kp r s' hst2 hsp2 htk

theorem claim_c8_witness :
    (Chip8.new ⟨false⟩).sp = 0 ∧ ({ sW2 with pc := sW2.pc + 2 } : Chip8).sp ≤ 16 := by
  refine ⟨claim_c8_stack_invariant.1 ⟨false⟩, ?_⟩
  have hb1 : sW2.memory.get? 0x200 = some 0x01 := by
    show (((List.replicate 4096 0).set 0x200 0x01).set 0x201 0x23).get? 0x200 = some 0x01
    rw [get?_set_ne _ _ _ _ (by omega)]
    exact get?_set_self _ _ _ (by rw [List.length_replicate]; norm_num)
  have hb2 : sW2.memory.get? 0x201 = some 0x23 :=
    get?_set_self _ _ _ (by rw [List.length_set, List.length_replicate]; norm_num)
  have htk : sW2.tick (List.replicate 16 0) 0 = some { sW2 with pc := sW2.pc + 2 } := by
    rw [tick_eq sW2 _ _ 0x01 0x23 hb1 hb2]
    exact execute_unmatched _ _ _ _ (by decide)
  exact claim_c8_stack_invariant.2.2.2 sW2 (List.replicate 16 0) 0 _
    (List.length_replicate 16 0) (by decide) htk

/-! ### Claim C3: the Dxyn sprite draw -/

/-- One bit of the drawing process as the SPEC describes it: if the bit
(most significant first, so bit 7 - c of the sprite byte) is set, compute
the target pixel index, reduce it modulo the full 2048-pixel buffer, set
the collision flag to 1 when the pixel already holds 1 (never clearing
it), and XOR the pixel. -/
def specStep (pixel vx rowBase : Nat) (a : List Nat × Nat) (c : Nat) :
    List Nat × Nat :=
  if pixel / 2 ^ (7 - c) % 2 = 1 then
    (a.1.set ((vx + c + rowBase) % 2048)
        (a.1.getD ((vx + c + rowBase) % 2048) 0 ^^^ 1),
      if a.1.getD ((vx + c + rowBase) % 2048) 0 = 1 then 1 else a.2)
  else a

/-- Modelled from the spec's words for `Dxyn`: draw the n-byte sprite at
(vx, vy); each sprite byte is 8 horizontal bits, most significant bit
first; for every set sprite bit XOR the pixel at
(vx + column) + (vy + row) * 64 reduced modulo the whole 2048-pixel
buffer, OR-ing the collision flag across all bits; the flag starts at 0. -/
def drawSpec (disp sprite : List Nat) (vx vy : Nat) : List Nat × Nat :=
  ((List.range sprite.length).flatMap
      (fun row => (List.range 8).map (fun col => (row, col)))).foldl
    (fun acc rc => specStep (sprite.getD rc.1 0) vx ((vy + rc.1) * 64) acc rc.2)
    (disp, 0)

theorem foldl_bind {α β γ : Type} : ∀ (l : List α) (g : α → List β)
    (f : γ → β → γ) (init : γ),
    (l.flatMap g).foldl f init = l.foldl (fun acc a => (g a).foldl f acc) init := by
  intro l
  induction l with
  | nil => intro g f init; rfl
  | cons a t ih =>
      intro g f init
      rw [List.flatMap_cons, List.foldl_append, List.foldl_cons, ih]

theorem foldl_congr_mem : ∀ (l : List Nat)
    (f g : (List Nat × Nat) → Nat → (List Nat × Nat)) (init : List Nat × Nat),
    (∀ a ∈ l, ∀ acc, f acc a = g acc a) → l.foldl f init = l.foldl g init := by
  intro l
  induction l with
  | nil => intro f g init _; rfl
  | cons a t ih =>
      intro f g init hfg
      rw [List.foldl_cons, List.foldl_cons, hfg a (by simp)]
      exact ih f g _ (fun b hb acc => hfg b (by simp [hb]) acc)

theorem specStep_length (pixel vx rowBase : Nat) (a : List Nat × Nat) (c : Nat) :
    (specStep pixel vx rowBase a c).1.length = a.1.length := by
  unfold specStep
  split <;> simp

theorem specFold_length : ∀ (cols : List Nat) (pixel vx rowBase : Nat)
    (acc : List Nat × Nat),
    ((cols.foldl (specStep pixel vx rowBase) acc)).1.length = acc.1.length := by
  intro cols
  induction cols with
  | nil => intro pixel vx rowBase acc; rfl
  | cons c rest ih =>
      intro pixel vx rowBase acc
      rw [List.foldl_cons, ih, specStep_length]

theorem drawBits_spec : ∀ (cols : List Nat) (pixel vx rowBase : Nat)
    (acc : List Nat × Nat), acc.1.length = 2048 → (∀ c ∈ cols, c < 8) →
    drawBits pixel vx rowBase cols acc =
      some (cols.foldl (specStep pixel vx rowBase) acc) := by
  intro cols
  induction cols with
  | nil => intro pixel vx rowBase acc _ _; rfl
  | cons c rest ih =>
      intro pixel vx rowBase acc hlen hc
      have hc8 : c < 8 := hc c (by simp)
      rw [List.foldl_cons]
      by_cases hbit : pixel / 2 ^ (7 - c) % 2 = 1
      · have hmask : pixel &&& (0x80 >>> c) ≠ 0 := (mask_bit _ _ hc8).2 hbit
        have hdp : drawPixel acc.1 (vx + c + rowBase) acc.2 =
            some (acc.1.set ((vx + c + rowBase) % 2048)
                (acc.1.getD ((vx + c + rowBase) % 2048) 0 ^^^ 1),
              if acc.1.getD ((vx + c + rowBase) % 2048) 0 = 1 then 1 else acc.2) := by
          unfold drawPixel
          rw [hlen]
          rw [get?_eq_some_getD _ _ (by rw [hlen]; exact Nat.mod_lt _ (by norm_num))]
          simp only [Option.pure_def, Option.bind_eq_bind, Option.some_bind]
        show (if pixel &&& (0x80 >>> c) ≠ 0 then _ else _) = _
        rw [if_pos hmask]
        show (drawPixel acc.1 (vx + c + rowBase) acc.2).bind _ = _
        rw [hdp]
        simp only [Option.some_bind]
        rw [show specStep pixel vx rowBase acc c =
            (acc.1.set ((vx + c + rowBase) % 2048)
                (acc.1.getD ((vx + c + rowBase) % 2048) 0 ^^^ 1),
              if acc.1.getD ((vx + c + rowBase) % 2048) 0 = 1 then 1 else acc.2) from by
          unfold specStep
          rw [if_pos hbit]]
        exact ih pixel vx rowBase _ (by simp [hlen]) (fun cc hcc => hc cc (by simp [hcc]))
      · have hmask : ¬ (pixel &&& (0x80 >>> c) ≠ 0) :=
          fun hh => hbit ((mask_bit _ _ hc8).1 hh)
        show (if pixel &&& (0x80 >>> c) ≠ 0 then _ else _) = _
        rw [if_neg hmask]
        rw [show specStep pixel vx rowBase acc c = acc from by
          unfold specStep
          rw [if_neg hbit]]
        exact ih pixel vx rowBase acc hlen (fun cc hcc => hc cc (by simp [hcc]))

theorem drawRows_spec : ∀ (rows mem : List Nat) (iReg vx vy : Nat)
    (acc : List Nat × Nat), acc.1.length = 2048 →
    (∀ ry ∈ rows, iReg + ry < mem.length) →
    drawRows mem iReg vx vy rows acc =
      some (rows.foldl (fun a ry =>
        (List.range 8).foldl (specStep (mem.getD (iReg + ry) 0) vx ((vy + ry) * 64)) a)
        acc) := by
  intro rows
  induction rows with
  | nil => intro mem iReg vx vy acc _ _; rfl
  | cons ry rest ih =>
      intro mem iReg vx vy acc hlen hr
      rw [List.foldl_cons]
      show (mem.get? (iReg + ry)).bind _ = _
      rw [get?_eq_some_getD _ _ (hr ry (by simp))]
      simp only [Option.some_bind]
      rw [drawBits_spec (List.range 8) _ vx _ acc hlen
        (fun c hcc => List.mem_range.1 hcc)]
      simp only [Option.bind_eq_bind, Option.some_bind]
      exact ih mem iReg vx vy _ (by rw [specFold_length]; exact hlen)
        (fun rr hrr => hr rr (by simp [hrr]))

theorem getD_of_get? : ∀ (l : List Nat) (j a : Nat), l.get? j = some a →
    l.getD j 0 = a := by
  intro l
  induction l with
  | nil => intro j a h; cases h
  | cons b t ih =>
      intro j a h
      cases j with
      | zero => simpa using h
      | succ k => simpa using ih k a (by simpa using h)

theorem sprite_getD (n : Nat) (f : Nat → Nat) (j : Nat) (hj : j < n) :
    ((List.range n).map f).getD j 0 = f j := by
  apply getD_of_get?
  rw [List.get?_map, List.get?_range hj]
  rfl

/-- The spec-side drawing as a nested row/column fold. -/
theorem drawSpec_as_fold (disp sprite : List Nat) (vx vy : Nat) :
    drawSpec disp sprite vx vy = (List.range sprite.length).foldl
      (fun a row => (List.range 8).foldl
        (specStep (sprite.getD row 0) vx ((vy + row) * 64)) a) (disp, 0) := by
  unfold drawSpec
  rw [foldl_bind]
  have hfun : (fun (acc : List Nat × Nat) row =>
      ((List.range 8).map (fun col => (row, col))).foldl
        (fun acc2 rc => specStep (sprite.getD rc.1 0) vx ((vy + rc.1) * 64) acc2 rc.2)
        acc) =
      (fun acc row => (List.range 8).foldl
        (specStep (sprite.getD row 0) vx ((vy + row) * 64)) acc) := by
    funext acc row
    rw [List.foldl_map]
  rw [hfun]

/-- C3: executing Dxyn (with the sprite bytes inside memory) draws the
n-byte sprite at memory[i..i+n] at position (v[x], v[y]) exactly as the
spec describes: every set bit (most significant first) XORs the pixel at
(v[x]+column) + (v[y]+row)*64 reduced modulo the whole 2048-pixel buffer,
and register[0xF] ends 1 iff some targeted pixel was already lit when its
bit was drawn (the flag is OR-accumulated and starts at 0); nothing else
changes. -/
theorem claim_c3_draw (s : Chip8) (kp : List Nat) (r x y n : Nat)
    (hx : x < 16) (hy : y < 16) (hn : n < 16) (hv : s.v.length = 16)
    (hd : s.display.length = 2048) (hm : s.i + n ≤ s.memory.length) :
    s.execute_opcode (0xD * 4096 + x * 256 + y * 16 + n) kp r =
      some { s with
              display := (drawSpec s.display
                ((List.range n).map (fun row => s.memory.getD (s.i + row) 0))
                (s.v.getD x 0) (s.v.getD y 0)).1,
              v := s.v.set 15 (drawSpec s.display
                ((List.range n).map (fun row => s.memory.getD (s.i + row) 0))
                (s.v.getD x 0) (s.v.getD y 0)).2 } := by
  obtain ⟨h1, h2, h3, h4, h5, h6⟩ := decode_fields 0xD x y n (by norm_num) hx hy hn
  have hgx : s.v.get? x = some (s.v.getD x 0) := get?_eq_some_getD _ _ (by omega)
  have hgy : s.v.get? y = some (s.v.getD y 0) := get?_eq_some_getD _ _ (by omega)
  simp +decide only [Chip8.execute_opcode, h1, h2, h3, h4, h5, h6, hgx, hgy,
    Option.pure_def, Option.bind_eq_bind, Option.some_bind, ite_true, ite_false]
  rw [drawRows_spec (List.range n) s.memory s.i _ _ (s.display, 0) hd
    (fun ry hry => by have := List.mem_range.1 hry; omega)]
  simp only [Option.bind_eq_bind, Option.some_bind]
  rw [setV_eq _ _ _ (by simp [hv])]
  have hsp : drawSpec s.display
      ((List.range n).map (fun row => s.memory.getD (s.i + row) 0))
      (s.v.getD x 0) (s.v.getD y 0) =
      (List.range n).foldl (fun a ry => (List.range 8).foldl
        (specStep (s.memory.getD (s.i + ry) 0) (s.v.getD x 0)
          ((s.v.getD y 0 + ry) * 64)) a) (s.display, 0) := by
    rw [drawSpec_as_fold]
    rw [List.length_map, List.length_range]
    apply foldl_congr_mem
    intro row hrow acc
    rw [sprite_getD n _ row (List.mem_range.1 hrow)]
  rw [hsp]

/-- Concrete machine for the C3 witness: one sprite byte 0xF0 at address
0, drawn with D015 (five rows starting at i = 0). -/
def sW3 : Chip8 :=
  { baseState (List.replicate 16 0) with
      memory := (List.replicate 4096 0).set 0 0xF0 }

theorem claim_c3_witness :
    sW3.execute_opcode (0xD * 4096 + 0 * 256 + 1 * 16 + 5) (List.replicate 16 0) 0 =
      some { sW3 with
              display := (drawSpec sW3.display
                ((List.range 5).map (fun row => sW3.memory.getD (sW3.i + row) 0))
                (sW3.v.getD 0 0) (sW3.v.getD 1 0)).1,
              v := sW3.v.set 15 (drawSpec sW3.display
                ((List.range 5).map (fun row => sW3.memory.getD (sW3.i + row) 0))
                (sW3.v.getD 0 0) (sW3.v.getD 1 0)).2 } :=
  claim_c3_draw sW3 (List.replicate 16 0) 0 0 1 5 (by norm_num) (by norm_num)
    (by norm_num) (by decide) (List.length_replicate 2048 0)
    (by show (0 : Nat) + 5 ≤ ((List.replicate 4096 0).set 0 0xF0).length
        rw [List.length_set, List.length_replicate]
        norm_num)

/-! ### Claim C1: totality of the cycle step -/

/-- The in-bounds side conditions that the fetched instruction needs in
order to complete: sprite reads for Dxyn, the key index for Ex9E/ExA1,
and the memory writes/reads of Fx33/Fx55/Fx65.  All other instructions
touch only indices that are in bounds by construction. -/
def accessOk (s : Chip8) (op : Nat) (kp : List Nat) : Prop :=
  (op / 4096 % 16 = 0xD → s.i + op % 16 ≤ s.memory.length) ∧
  (op / 4096 % 16 = 0xE → (op % 256 = 0x9E ∨ op % 256 = 0xA1) →
    s.v.getD (op / 256 % 16) 0 < kp.length) ∧
  (op / 4096 % 16 = 0xF → op % 256 = 0x33 → s.i + 2 < s.memory.length) ∧
  (op / 4096 % 16 = 0xF → (op % 256 = 0x55 ∨ op % 256 = 0x65) →
    s.i + op / 256 % 16 < s.memory.length)

instance (s : Chip8) (op : Nat) (kp : List Nat) : Decidable (accessOk s op kp) := by
  unfold accessOk; infer_instance

theorem storeSeq_isSome : ∀ (js : List Nat) (s : Chip8),
    (∀ j ∈ js, j < s.v.length ∧ s.i + j < s.memory.length) →
    (storeSeq s js).isSome := by
  intro js
  induction js with
  | nil => intro s _; rfl
  | cons j rest ih =>
      intro s hc
      obtain ⟨hj1, hj2⟩ := hc j (by simp)
      show ((s.v.get? j).bind _).isSome
      rw [get?_eq_some_getD _ _ hj1]
      simp only [Option.bind_eq_bind, Option.some_bind]
      rw [setMem_eq _ _ _ hj2]
      simp only [Option.bind_eq_bind, Option.some_bind]
      exact ih _ (fun jj hjj => by
        have := hc jj (by simp [hjj])
        simpa using this)
  
theorem loadSeq_isSome : ∀ (js : List Nat) (s : Chip8),
    (∀ j ∈ js, j < s.v.length ∧ s.i + j < s.memory.length) →
    (loadSeq s js).isSome := by
  intro js
  induction js with
  | nil => intro s _; rfl
  | cons j rest ih =>
      intro s hc
      obtain ⟨hj1, hj2⟩ := hc j (by simp)
      show ((s.memory.get? (s.i + j)).bind _).isSome
      rw [get?_eq_some_getD _ _ hj2]
      simp only [Option.bind_eq_bind, Option.some_bind]
      rw [setV_eq _ _ _ hj1]
      simp only [Option.bind_eq_bind, Option.some_bind]
      exact ih _ (fun jj hjj => by
        have := hc jj (by simp [hjj])
        simpa [List.length_set] using this)

set_option maxHeartbeats 2000000 in
theorem execute_isSome (s : Chip8) (op : Nat) (kp : List Nat) (r : Nat)
    (hsz : sizesOk s) (hsp : s.sp ≤ 16) (hacc : accessOk s op kp) :
    (s.execute_opcode op kp r).isSome := by
  obtain ⟨hm, hv, hst, hd⟩ := hsz
  obtain ⟨haccD, haccE, hacc33, hacc55⟩ := hacc
  have hxlt : op / 256 % 16 < 16 := Nat.mod_lt _ (by norm_num)
  have hylt : op / 16 % 16 < 16 := Nat.mod_lt _ (by norm_num)
  have rx : s.v.get? (op / 256 % 16) = some (s.v.getD (op / 256 % 16) 0) :=
    get?_eq_some_getD _ _ (by omega)
  have ry : s.v.get? (op / 16 % 16) = some (s.v.getD (op / 16 % 16) 0) :=
    get?_eq_some_getD _ _ (by omega)
  have hf : op / 4096 % 16 = 0 ∨ op / 4096 % 16 = 1 ∨ op / 4096 % 16 = 2 ∨
      op / 4096 % 16 = 3 ∨ op / 4096 % 16 = 4 ∨ op / 4096 % 16 = 5 ∨
      op / 4096 % 16 = 6 ∨ op / 4096 % 16 = 7 ∨ op / 4096 % 16 = 8 ∨
      op / 4096 % 16 = 9 ∨ op / 4096 % 16 = 10 ∨ op / 4096 % 16 = 11 ∨
      op / 4096 % 16 = 12 ∨ op / 4096 % 16 = 13 ∨ op / 4096 % 16 = 14 ∨
      op / 4096 % 16 = 15 := by omega
  unfold Chip8.execute_opcode
  rcases hf with hf | hf | hf | hf | hf | hf | hf | hf | hf | hf | hf | hf | hf |
    hf | hf | hf <;> rw [hf] <;>
    simp +decide only [ite_true, ite_false, Option.pure_def, Option.bind_eq_bind]
  · -- 0-group
    split
    · split
      · split
        · rw [get?_eq_some_getD s.stack (s.sp - 1) (by omega)]
          simp
        · simp
      · simp
    · simp
  · -- 1nnn
    simp
  · -- 2nnn
    split <;> simp
  · -- 3xkk
    rw [rx]
    simp
  · -- 4xkk
    rw [rx]
    simp
  · -- 5xy0
    rw [rx]
    simp only [Option.some_bind]
    rw [ry]
    simp
  · -- 6xkk
    rw [setV_eq _ _ _ (by omega)]
    simp
  · -- 7xkk
    rw [rx]
    simp only [Option.some_bind]
    rw [setV_eq _ _ _ (by omega)]
    simp
  · -- 8-group
    have hn : op % 16 = 0 ∨ op % 16 = 1 ∨ op % 16 = 2 ∨ op % 16 = 3 ∨ op % 16 = 4 ∨
        op % 16 = 5 ∨ op % 16 = 6 ∨ op % 16 = 7 ∨ op % 16 = 14 ∨
        (op % 16 ≠ 0 ∧ op % 16 ≠ 1 ∧ op % 16 ≠ 2 ∧ op % 16 ≠ 3 ∧ op % 16 ≠ 4 ∧
          op % 16 ≠ 5 ∧ op % 16 ≠ 6 ∧ op % 16 ≠ 7 ∧ op % 16 ≠ 14) := by omega
    rcases hn with hn | hn | hn | hn | hn | hn | hn | hn | hn | hn
    · rw [hn]
      simp +decide only [ite_true, ite_false]
      rw [ry]
      simp only [Option.some_bind]
      rw [setV_eq _ _ _ (by omega)]
      simp
    · rw [hn]
      simp +decide only [ite_true, ite_false]
      rw [rx]
      simp only [Option.some_bind]
      rw [ry]
      simp only [Option.some_bind]
      rw [setV_eq _ _ _ (by omega)]
      simp
    · rw [hn]
      simp +decide only [ite_true, ite_false]
      rw [rx]
      simp only [Option.some_bind]
      rw [ry]
      simp only [Option.some_bind]
      rw [setV_eq _ _ _ (by omega)]
      simp
    · rw [hn]
      simp +decide only [ite_true, ite_false]
      rw [rx]
      simp only [Option.some_bind]
      rw [ry]
      simp only [Option.some_bind]
      rw [setV_eq _ _ _ (by omega)]
      simp
    · -- 8xy4
      rw [hn]
      simp +decide only [ite_true, ite_false]
      rw [rx]
      simp only [Option.some_bind]
      rw [ry]
      simp only [Option.some_bind]
      rw [setV_eq _ _ _ (by omega)]
      simp only [Option.some_bind]
      rw [setV_eq _ _ _ (by simp only [List.length_set]; omega)]
      simp
    · -- 8xy5
      rw [hn]
      simp +decide only [ite_true, ite_false]
      rw [rx]
      simp only [Option.some_bind]
      rw [ry]
      simp only [Option.some_bind]
      rw [setV_eq _ _ _ (by omega)]
      simp only [Option.some_bind]
      rw [get?_eq_some_getD _ _ (by simp only [List.length_set]; omega)]
      simp only [Option.some_bind]
      rw [get?_eq_some_getD _ _ (by simp only [List.length_set]; omega)]
      simp only [Option.some_bind]
      rw [setV_eq _ _ _ (by simp only [List.length_set]; omega)]
      simp
    · -- 8xy6
      rw [hn]
      simp +decide only [ite_true, ite_false]
      rcases hq : s.quirks.shift_vy with _ | _ <;> simp only [hq,
        Bool.false_eq_true, Bool.true_eq_false, ite_true, ite_false,
        Option.some_bind]
      · rw [rx]
        simp only [Option.some_bind]
        rw [setV_eq _ _ _ (by omega)]
        simp only [Option.some_bind]
        rw [get?_eq_some_getD _ _ (by simp only [List.length_set]; omega)]
        simp only [Option.some_bind]
        rw [setV_eq _ _ _ (by simp only [List.length_set]; omega)]
        simp
      · rw [ry]
        simp only [Option.some_bind]
        rw [setV_eq _ _ _ (by omega)]
        simp only [Option.some_bind]
        rw [get?_eq_some_getD _ _ (by simp only [List.length_set]; omega)]
        simp only [Option.some_bind]
        rw [setV_eq _ _ _ (by simp only [List.length_set]; omega)]
        simp only [Option.some_bind]
        rw [get?_eq_some_getD _ _ (by simp only [List.length_set]; omega)]
        simp only [Option.some_bind]
        rw [setV_eq _ _ _ (by simp only [List.length_set]; omega)]
        simp
    · -- 8xy7
      rw [hn]
      simp +decide only [ite_true, ite_false]
      rw [rx]
      simp only [Option.some_bind]
      rw [ry]
      simp only [Option.some_bind]
      rw [setV_eq _ _ _ (by omega)]
      simp only [Option.some_bind]
      rw [get?_eq_some_getD _ _ (by simp only [List.length_set]; omega)]
      simp only [Option.some_bind]
      rw [get?_eq_some_getD _ _ (by simp only [List.length_set]; omega)]
      simp only [Option.some_bind]
      rw [setV_eq _ _ _ (by simp only [List.length_set]; omega)]
      simp
    · -- 8xyE
      rw [hn]
      simp +decide only [ite_true, ite_false]
      rcases hq : s.quirks.shift_vy with _ | _ <;> simp only [hq,
        Bool.false_eq_true, Bool.true_eq_false, ite_true, ite_false,
        Option.some_bind]
      · rw [rx]
        simp only [Option.some_bind]
        rw [setV_eq _ _ _ (by omega)]
        simp only [Option.some_bind]
        rw [get?_eq_some_getD _ _ (by simp only [List.length_set]; omega)]
        simp only [Option.some_bind]
        rw [setV_eq _ _ _ (by simp only [List.length_set]; omega)]
        simp
      · rw [ry]
        simp only [Option.some_bind]
        rw [setV_eq _ _ _ (by omega)]
        simp only [Option.some_bind]
        rw [get?_eq_some_getD _ _ (by simp only [List.length_set]; omega)]
        simp only [Option.some_bind]
        rw [setV_eq _ _ _ (by simp only [List.length_set]; omega)]
        simp only [Option.some_bind]
        rw [get?_eq_some_getD _ _ (by simp only [List.length_set]; omega)]
        simp only [Option.some_bind]
        rw [setV_eq _ _ _ (by simp only [List.length_set]; omega)]
        simp
    · obtain ⟨e0, e1, e2, e3, e4, e5, e6, e7, eE⟩ := hn
      simp +decide only [e0, e1, e2, e3, e4, e5, e6, e7, eE, ite_true, ite_false]
      rfl
  · -- 9xy0
    rw [rx]
    simp only [Option.some_bind]
    rw [ry]
    simp
  · -- Annn
    simp
  · -- Bnnn
    rw [get?_eq_some_getD _ _ (by omega)]
    simp
  · -- Cxkk
    rw [setV_eq _ _ _ (by omega)]
    simp
  · -- Dxyn
    rw [rx]
    simp only [Option.some_bind]
    rw [ry]
    simp only [Option.some_bind]
    rw [drawRows_spec (List.range (op % 16)) s.memory s.i _ _ (s.display, 0) hd
      (fun ryy hryy => by
        have h1 := List.mem_range.1 hryy
        have h2 := haccD hf
        omega)]
    simp only [Option.some_bind]
    rw [setV_eq _ _ _ (by simp [hv])]
    simp
  · -- E-group
    have hkE : op % 256 = 0x9E ∨ op % 256 = 0xA1 ∨
        (op % 256 ≠ 0x9E ∧ op % 256 ≠ 0xA1) := by omega
    rcases hkE with hkE | hkE | hkE
    · rw [hkE]
      simp +decide only [ite_true, ite_false]
      rw [rx]
      simp only [Option.some_bind]
      rw [get?_eq_some_getD kp _ (haccE hf (Or.inl hkE))]
      simp
    · rw [hkE]
      simp +decide only [ite_true, ite_false]
      rw [rx]
      simp only [Option.some_bind]
      rw [get?_eq_some_getD kp _ (haccE hf (Or.inr hkE))]
      simp
    · obtain ⟨e1, e2⟩ := hkE
      simp +decide only [e1, e2, ite_true, ite_false]
      rfl
  · -- F-group
    have hk2 : op % 256 = 0x07 ∨ op % 256 = 0x0A ∨ op % 256 = 0x15 ∨
        op % 256 = 0x18 ∨ op % 256 = 0x1E ∨ op % 256 = 0x29 ∨ op % 256 = 0x33 ∨
        op % 256 = 0x55 ∨ op % 256 = 0x65 ∨
        (op % 256 ≠ 0x07 ∧ op % 256 ≠ 0x0A ∧ op % 256 ≠ 0x15 ∧ op % 256 ≠ 0x18 ∧
          op % 256 ≠ 0x1E ∧ op % 256 ≠ 0x29 ∧ op % 256 ≠ 0x33 ∧ op % 256 ≠ 0x55 ∧
          op % 256 ≠ 0x65) := by omega
    rcases hk2 with hk2 | hk2 | hk2 | hk2 | hk2 | hk2 | hk2 | hk2 | hk2 | hk2
    · rw [hk2]
      simp +decide only [ite_true, ite_false]
      rw [setV_eq _ _ _ (by omega)]
      simp
    · rw [hk2]
      simp +decide only [ite_true, ite_false]
      rcases hks : keyScan kp with _ | j
      · simp
      · dsimp only
        rw [setV_eq _ _ _ (by omega)]
        simp
    · rw [hk2]
      simp +decide only [ite_true, ite_false]
      rw [rx]
      simp
    · rw [hk2]
      simp +decide only [ite_true, ite_false]
      rw [rx]
      simp
    · rw [hk2]
      simp +decide only [ite_true, ite_false]
      rw [rx]
      simp
    · rw [hk2]
      simp +decide only [ite_true, ite_false]
      rw [rx]
      simp
    · -- Fx33
      rw [hk2]
      simp +decide only [ite_true, ite_false]
      rw [rx]
      simp only [Option.some_bind]
      have h33 := hacc33 hf hk2
      rw [setMem_eq _ _ _ (by omega)]
      simp only [Option.some_bind]
      rw [setMem_eq _ _ _ (by simp only [List.length_set]; omega)]
      simp only [Option.some_bind]
      rw [setMem_eq _ _ _ (by simp only [List.length_set]; omega)]
      simp
    · -- Fx55
      rw [hk2]
      simp +decide only [ite_true, ite_false]
      exact storeSeq_isSome _ _ (fun j hj => by
        have h1 := List.mem_range.1 hj
        have h2 := hacc55 hf (Or.inl hk2)
        exact ⟨by omega, by omega⟩)
    · -- Fx65
      rw [hk2]
      simp +decide only [ite_true, ite_false]
      exact loadSeq_isSome _ _ (fun j hj => by
        have h1 := List.mem_range.1 hj
        have h2 := hacc55 hf (Or.inr hk2)
        exact ⟨by omega, by omega⟩)
    · obtain ⟨e1, e2, e3, e4, e5, e6, e7, e8, e9⟩ := hk2
      simp +decide only [e1, e2, e3, e4, e5, e6, e7, e8, e9, ite_true, ite_false]
      rfl

theorem initialize_memory_length (f m : List Nat) :
    (initialize_memory f m).length = m.length := by
  unfold initialize_memory
  generalize List.range 80 = l
  induction l generalizing m with
  | nil => rfl
  | cons a t ih =>
      rw [List.foldl_cons, ih]
      simp

theorem initialize_memory_get?_high (f m : List Nat) (a : Nat) (ha : 80 ≤ a) :
    (initialize_memory f m).get? a = m.get? a := by
  unfold initialize_memory
  have haux : ∀ (l : List Nat), (∀ j ∈ l, j < 80) → ∀ (mm : List Nat),
      (l.foldl (fun mcur j => mcur.set j (f.getD j 0)) mm).get? a = mm.get? a := by
    intro l
    induction l with
    | nil => intro _ mm; rfl
    | cons b t ih =>
        intro hmem mm
        rw [List.foldl_cons, ih (fun j hj => hmem j (by simp [hj]))]
        exact get?_set_ne _ _ _ _ (by have := hmem b (by simp); omega)
  exact haux (List.range 80) (fun j hj => List.mem_range.1 hj) m

/-- The `Annn` arm. -/
theorem execute_Annn_eq (s : Chip8) (kp : List Nat) (r m : Nat) (hm : m < 4096) :
    s.execute_opcode (0xA * 4096 + m) kp r = some { s with i := m } := by
  obtain ⟨h1, h5⟩ := decode_first_nnn 0xA m (by norm_num) hm
  simp +decide only [Chip8.execute_opcode, h1, h5, Option.pure_def,
    ite_true, ite_false]

/-- The `Fx33` arm panics when the second write lands out of bounds. -/
theorem execute_Fx33_none (s : Chip8) (kp : List Nat) (r x : Nat) (hx : x < 16)
    (hv : s.v.length = 16) (h1 : s.i < s.memory.length)
    (h2 : ¬ (s.i + 1 < s.memory.length)) :
    s.execute_opcode (0xF * 4096 + x * 256 + 0x33) kp r = none := by
  obtain ⟨hf1, hf2, hf6⟩ := decode_first_x_kk 0xF x 0x33 (by norm_num) hx (by norm_num)
  simp +decide only [Chip8.execute_opcode, hf1, hf2, hf6, Option.pure_def,
    Option.bind_eq_bind, ite_true, ite_false]
  rw [get?_eq_some_getD _ _ (by omega)]
  simp only [Option.some_bind]
  rw [setMem_eq _ _ _ h1]
  simp only [Option.some_bind]
  have h2' : ¬ (s.i + 1 <
      ({ s with memory := s.memory.set s.i (s.v.getD x 0 / 100) } : Chip8).memory.length) := by
    simpa using h2
  show (setMem _ _ _).bind _ = none
  unfold setMem
  rw [if_neg h2']
  rfl

/-- C1 (amended): the cycle step completes — no out-of-bounds panic —
whenever the fetch addresses pc and pc+1 are inside the 4 KB memory and
the fetched instruction's own memory / key indices are in range
(`accessOk`): Dxyn needs i+n ≤ 4096, Ex9E/ExA1 need v[x] < 16, Fx33
needs i+2 < 4096 and Fx55/Fx65 need i+x < 4096.  `update_timers` and
`load_rom` are total by construction (they are plain functions in this
embedding, mirroring code with no indexing).  The original claim — that
the step is total on EVERY reachable state — is false: see the
counterexample, a freshly loaded ROM that faults on its second cycle. -/
theorem claim_c1_step_totality (s : Chip8) (kp : List Nat) (r : Nat)
    (hsz : sizesOk s) (hsp : s.sp ≤ 16) (hpc : s.pc + 1 < 4096)
    (hacc : accessOk s (s.memory.getD s.pc 0 * 256 + s.memory.getD (s.pc + 1) 0) kp) :
    (s.tick kp r).isSome := by
  obtain ⟨hm, hv, hst, hd⟩ := hsz
  have h1 : s.memory.get? s.pc = some (s.memory.getD s.pc 0) :=
    get?_eq_some_getD _ _ (by omega)
  have h2 : s.memory.get? (s.pc + 1) = some (s.memory.getD (s.pc + 1) 0) :=
    get?_eq_some_getD _ _ (by omega)
  rw [tick_eq s kp r _ _ h1 h2]
  exact execute_isSome _ _ kp r ⟨hm, hv, hst, hd⟩ hsp hacc

theorem claim_c1_witness : ((Chip8.new ⟨false⟩).tick (List.replicate 16 0) 0).isSome := by
  have g1 : (Chip8.new ⟨false⟩).memory.getD 0x200 0 = 0 := by
    apply getD_of_get?
    show (initialize_memory FONT_SET (List.replicate 4096 0)).get? 0x200 = some 0
    rw [initialize_memory_get?_high _ _ _ (by norm_num)]
    exact get?_replicate_lt 4096 0x200 (by norm_num)
  have g2 : (Chip8.new ⟨false⟩).memory.getD (0x200 + 1) 0 = 0 := by
    apply getD_of_get?
    show (initialize_memory FONT_SET (List.replicate 4096 0)).get? 0x201 = some 0
    rw [initialize_memory_get?_high _ _ _ (by norm_num)]
    exact get?_replicate_lt 4096 0x201 (by norm_num)
  refine claim_c1_step_totality _ _ 0
    ⟨?_, List.length_replicate 16 0, List.length_replicate 16 0,
      List.length_replicate (64 * 32) 0⟩
    (Nat.zero_le 16) (by norm_num : (0x200 : Nat) + 1 < 4096) ?_
  · show (initialize_memory FONT_SET (List.replicate 4096 0)).length = 4096
    rw [initialize_memory_length, List.length_replicate]
  · show accessOk (Chip8.new ⟨false⟩)
      ((Chip8.new ⟨false⟩).memory.getD 0x200 0 * 256 +
        (Chip8.new ⟨false⟩).memory.getD (0x200 + 1) 0) (List.replicate 16 0)
    rw [g1, g2]
    exact ⟨fun h => absurd h (by norm_num), fun h => absurd h (by norm_num),
      fun h => absurd h (by norm_num), fun h => absurd h (by norm_num)⟩

/-- The ROM of the C1 counterexample: `AFFF` (set i = 0xFFF) followed by
`F033` (BCD store at i, i+1, i+2 — the last two writes are out of
bounds). -/
def romC1 : List Nat := [0xAF, 0xFF, 0xF0, 0x33]

/-- A reachable machine: freshly constructed, then loaded with `romC1`. -/
def sC1 : Chip8 := (Chip8.new ⟨false⟩).load_rom romC1

/-- Projection unfolding lemmas, used to reason about loaded machines
without ever evaluating the 4096-byte memory. -/
theorem load_rom_memory (s : Chip8) (data : List Nat) :
    (s.load_rom data).memory = loadBytes s.memory 0 data := rfl

theorem load_rom_pc (s : Chip8) (data : List Nat) : (s.load_rom data).pc = s.pc := rfl

theorem load_rom_v (s : Chip8) (data : List Nat) : (s.load_rom data).v = s.v := rfl

theorem new_memory (q : Quirks) :
    (Chip8.new q).memory = initialize_memory FONT_SET (List.replicate 4096 0) := rfl

theorem new_pc (q : Quirks) : (Chip8.new q).pc = 0x200 := rfl

theorem new_v (q : Quirks) : (Chip8.new q).v = List.replicate 16 0 := rfl

/-- C1 counterexample: from the freshly loaded (hence reachable) machine
`sC1`, the first cycle completes (setting i = 0xFFF) and the second cycle
faults: the Fx33 write at address 0x1000 is out of bounds, so the step is
not total on reachable states. -/
theorem claim_c1_counterexample :
    ((sC1.tick (List.replicate 16 0) 0).isSome = true) ∧
    ((sC1.tick (List.replicate 16 0) 0).bind
      (fun t => t.tick (List.replicate 16 0) 0) = none) := by
  have sC1_eq : sC1 = (Chip8.new ⟨false⟩).load_rom romC1 := rfl
  have hmem : sC1.memory =
      loadBytes (initialize_memory FONT_SET (List.replicate 4096 0)) 0 romC1 := by
    rw [sC1_eq, load_rom_memory, new_memory]
  have hpc : sC1.pc = 0x200 := by rw [sC1_eq, load_rom_pc, new_pc]
  have hvv : sC1.v = List.replicate 16 0 := by rw [sC1_eq, load_rom_v, new_v]
  have hilen : (initialize_memory FONT_SET (List.replicate 4096 0)).length = 4096 := by
    rw [initialize_memory_length, List.length_replicate]
  have hmlen : sC1.memory.length = 4096 := by
    rw [hmem, loadBytes_length, hilen]
  have hb0 : sC1.memory.get? 0x200 = some 0xAF := by
    rw [hmem]
    have hh := loadBytes_get_hit romC1 (initialize_memory FONT_SET (List.replicate 4096 0))
      0 0 (by norm_num [romC1]) (by rw [hilen]; norm_num)
    rw [show (0 : Nat) + 0x200 + 0 = 0x200 from rfl,
      show romC1.get? 0 = some 0xAF from rfl] at hh
    exact hh
  have hb1 : sC1.memory.get? 0x201 = some 0xFF := by
    rw [hmem]
    have hh := loadBytes_get_hit romC1 (initialize_memory FONT_SET (List.replicate 4096 0))
      0 1 (by norm_num [romC1]) (by rw [hilen]; norm_num)
    rw [show (0 : Nat) + 0x200 + 1 = 0x201 from rfl,
      show romC1.get? 1 = some 0xFF from rfl] at hh
    exact hh
  have hb2 : sC1.memory.get? 0x202 = some 0xF0 := by
    rw [hmem]
    have hh := loadBytes_get_hit romC1 (initialize_memory FONT_SET (List.replicate 4096 0))
      0 2 (by norm_num [romC1]) (by rw [hilen]; norm_num)
    rw [show (0 : Nat) + 0x200 + 2 = 0x202 from rfl,
      show romC1.get? 2 = some 0xF0 from rfl] at hh
    exact hh
  have hb3 : sC1.memory.get? 0x203 = some 0x33 := by
    rw [hmem]
    have hh := loadBytes_get_hit romC1 (initialize_memory FONT_SET (List.replicate 4096 0))
      0 3 (by norm_num [romC1]) (by rw [hilen]; norm_num)
    rw [show (0 : Nat) + 0x200 + 3 = 0x203 from rfl,
      show romC1.get? 3 = some 0x33 from rfl] at hh
    exact hh
  have hb0' : sC1.memory.get? sC1.pc = some 0xAF := by rw [hpc]; exact hb0
  have hb1' : sC1.memory.get? (sC1.pc + 1) = some 0xFF := by rw [hpc]; exact hb1
  have htk : sC1.tick (List.replicate 16 0) 0 =
      some { sC1 with pc := sC1.pc + 2, i := 0xFFF } := by
    rw [tick_eq sC1 _ _ 0xAF 0xFF hb0' hb1',
      show (0xAF : Nat) * 256 + 0xFF = 0xA * 4096 + 0xFFF from by norm_num,
      execute_Annn_eq _ _ _ _ (by norm_num)]
  refine ⟨by rw [htk]; rfl, ?_⟩
  rw [htk]
  simp only [Option.some_bind]
  have hb2' : ({ sC1 with pc := sC1.pc + 2, i := 0xFFF } : Chip8).memory.get?
      ({ sC1 with pc := sC1.pc + 2, i := 0xFFF } : Chip8).pc = some 0xF0 := by
    dsimp only
    rw [hpc]
    exact hb2
  have hb3' : ({ sC1 with pc := sC1.pc + 2, i := 0xFFF } : Chip8).memory.get?
      (({ sC1 with pc := sC1.pc + 2, i := 0xFFF } : Chip8).pc + 1) = some 0x33 := by
    dsimp only
    rw [hpc]
    exact hb3
  rw [tick_eq _ _ _ 0xF0 0x33 hb2' hb3',
    show (0xF0 : Nat) * 256 + 0x33 = 0xF * 4096 + 0 * 256 + 0x33 from by norm_num]
  have hv2 : ({ ({ sC1 with pc := sC1.pc + 2, i := 0xFFF } : Chip8) with
      pc := ({ sC1 with pc := sC1.pc + 2, i := 0xFFF } : Chip8).pc + 2 } : Chip8).v.length
      = 16 := by
    dsimp only
    rw [hvv, List.length_replicate]
  have hi1 : ({ ({ sC1 with pc := sC1.pc + 2, i := 0xFFF } : Chip8) with
      pc := ({ sC1 with pc := sC1.pc + 2, i := 0xFFF } : Chip8).pc + 2 } : Chip8).i <
      ({ ({ sC1 with pc := sC1.pc + 2, i := 0xFFF } : Chip8) with
      pc := ({ sC1 with pc := sC1.pc + 2, i := 0xFFF } : Chip8).pc + 2 } : Chip8).memory.length := by
    dsimp only
    rw [hmlen]
    norm_num
  have hi2 : ¬ (({ ({ sC1 with pc := sC1.pc + 2, i := 0xFFF } : Chip8) with
      pc := ({ sC1 with pc := sC1.pc + 2, i := 0xFFF } : Chip8).pc + 2 } : Chip8).i + 1 <
      ({ ({ sC1 with pc := sC1.pc + 2, i := 0xFFF } : Chip8) with
      pc := ({ sC1 with pc := sC1.pc + 2, i := 0xFFF } : Chip8).pc + 2 } : Chip8).memory.length) := by
    dsimp only
    rw [hmlen]
    norm_num
  exact execute_Fx33_none _ _ _ 0 (by norm_num) hv2 hi1 hi2
